import Mathlib

/-
Verification of the threeAi text-to-3D generation pipeline.

This file is a shallow embedding, in Lean 4, of the parts of the repository
that the specification's claims talk about:

* the procedural synthesizer of `src/js/ai-integration.js`
  (`generateProceduralModel`, `generateBasicShape`, `generateTree`,
  `generateBuilding`, `generateCar`);
* the model cache of `AIModelGenerator` (`cacheModel`, `getCachedModel`);
* the strategy loop `tryAIGeneration` of `src/js/main.js`;
* the UI entry point `generateGeometry` / `generateProcedural` /
  `incrementUsage` of `src/js/main.js`;
* the GLB asset library of `src/js/utils/helpers.js`
  (`findBestMatch`, `cloneModel`, `optimizeModel`);
* the `HuggingFaceService` inference client (`generate3DModel`,
  `tryMultipleApproaches`, `gradioAPICall`, `fallbackGeneration`,
  `createEnhancedProceduralModel`, `optimizeModel`).

Modelling conventions:

* Numbers are exact rationals (`ℚ`); JavaScript numbers in the embedded
  fragments are decimal literals and small integers, so no floating-point
  behaviour is modelled (none of the claims depends on rounding).
* Rotations are recorded in the object model (in units of π, so that the
  source's `Math.PI / 2` becomes `1/2`) but bounding boxes are only defined
  and only reasoned about for unrotated nodes; all bounding-box theorems
  carry an explicit "rotation is zero" hypothesis.
* Asynchronous calls that can reject, time out, or resolve to a null-ish
  value are embedded as `Option`-valued outcomes: `none` covers "threw,
  timed out or returned nothing", which is exactly how every caller in the
  source treats them (a `catch` plus an `if (model)` check).
* Mutable references to materials / geometries (three.js `Object3D` graphs
  alias their `material` and `geometry` objects) are embedded with an
  explicit heap: objects store numeric references and a heap maps
  references to values; `Object3D.clone()` copies the node tree (fresh
  transform state) while keeping the same geometry/material references.
-/

set_option maxHeartbeats 1000000

/-! ## Basic geometric data model -/

/-- A 3-component vector with exact rational coordinates. -/
structure V3 where
  x : ℚ
  y : ℚ
  z : ℚ
deriving DecidableEq, Repr

/-- The zero vector (default position/rotation of a fresh `Object3D`). -/
def v0 : V3 := ⟨0, 0, 0⟩

/-- The unit vector (default scale of a fresh `Object3D`). -/
def v1 : V3 := ⟨1, 1, 1⟩

/-- Material colors as they appear literally in the source: either a hex
literal (`0x8B4513`) or an rgb triple built from computed components. -/
inductive ColorVal where
  | hex (n : Nat)
  | rgb (r g b : ℚ)
deriving DecidableEq, Repr

/-- A material.  Only the color is modelled; the other
`MeshPhongMaterial` parameters (shininess, opacity, …) play no role in any
claim. -/
structure Material where
  color : ColorVal
deriving DecidableEq, Repr

/-- Geometries constructed by the embedded fragments, with the numeric
constructor arguments of the source (`THREE.BoxGeometry(w, h, d)`,
`THREE.SphereGeometry(r, widthSegments, heightSegments)`,
`THREE.CylinderGeometry(rTop, rBot, height, radialSegments)`,
`THREE.ConeGeometry(radius, height, radialSegments)`). -/
inductive Geometry where
  | box (w h d : ℚ)
  | sphere (r : ℚ) (ws hs : Nat)
  | cylinder (rTop rBot h : ℚ) (rs : Nat)
  | cone (r h : ℚ) (rs : Nat)
deriving DecidableEq, Repr

/-- A value-level three.js object tree: a mesh (with position, scale,
rotation-in-π-units, geometry and material) or a group of children. -/
inductive PObj where
  | mesh (pos scale rot : V3) (geom : Geometry) (mat : Material)
  | group (pos scale rot : V3) (children : List PObj)

mutual

/-- Number of meshes in an object tree ("shapes" in the specification's
vocabulary). -/
def meshCount : PObj → Nat
  | .mesh _ _ _ _ _ => 1
  | .group _ _ _ cs => meshCountL cs

/-- Number of meshes in a list of object trees. -/
def meshCountL : List PObj → Nat
  | [] => 0
  | o :: os => meshCount o + meshCountL os

end

@[simp] theorem meshCount_mesh (p s r g m) : meshCount (.mesh p s r g m) = 1 := rfl

@[simp] theorem meshCount_group (p s r cs) : meshCount (.group p s r cs) = meshCountL cs := rfl

@[simp] theorem meshCountL_nil : meshCountL [] = 0 := rfl

@[simp] theorem meshCountL_cons (o os) : meshCountL (o :: os) = meshCount o + meshCountL os := rfl

/-! ## Prompt tokenization

Every embedded fragment starts with `prompt.toLowerCase().split(' ')`. -/

/-- Split a character list at every space, keeping empty segments —
the semantics of JavaScript `split(' ')`. -/
def splitChars : List Char → List (List Char)
  | [] => [[]]
  | c :: rest =>
    if c = ' ' then [] :: splitChars rest
    else
      match splitChars rest with
      | [] => [[c]]
      | w :: ws => (c :: w) :: ws

/-- `prompt.toLowerCase().split(' ')`, spelled out character by character
so that it evaluates inside the kernel (the prompts in play are ASCII,
where JavaScript `toLowerCase` and `Char.toLower` agree). -/
def tokenize (prompt : String) : List String :=
  (splitChars (prompt.data.map Char.toLower)).map (fun cs => String.mk cs)

/-- JavaScript `String.prototype.trim`, spelled out over characters. -/
def trimString (s : String) : String :=
  ⟨((s.data.dropWhile Char.isWhitespace).reverse.dropWhile Char.isWhitespace).reverse⟩

/-! ## Plain-object property reads

`shapeMap`, `colorMap` (ai-integration.js) and `modelMap` (helpers.js)
are object literals read with `table[word]`.  A JavaScript property read
walks the prototype chain, so besides the literal's own entries it can
hit members inherited from `Object.prototype`.  The words in play are
lowercased user tokens, and the only all-lowercase inherited member
names are `constructor` and `__proto__`; both reads are truthy (a
function and an object respectively). -/

/-- The lowercased tokens under which a property read on an object
literal hits an inherited `Object.prototype` member. -/
def objectProtoKeys : List String := ["constructor", "__proto__"]

/-- The result of the property read `table[word]` on an object literal:
an own entry, a truthy member inherited from `Object.prototype`, or
`undefined` (falsy). -/
inductive JsProp (α : Type) where
  | own (a : α)
  | protoMember (k : String)
  | undefined
deriving DecidableEq, Repr

/-- `table[word]` for an object literal whose own entries are the given
association list. -/
def jsPropGet {α : Type} (table : List (String × α)) (w : String) : JsProp α :=
  match table.find? (fun kv => kv.1 = w) with
  | some kv => .own kv.2
  | none => if w ∈ objectProtoKeys then .protoMember w else .undefined

/-- A JavaScript value that is either the expected datum or an inherited
`Object.prototype` member leaked by a prototype-chain read. -/
inductive JsVal (α : Type) where
  | val (a : α)
  | protoMember (k : String)
deriving DecidableEq, Repr

/-! ## `AIModelGenerator` — procedural synthesis
(`src/js/ai-integration.js`, lines 542–667) -/

namespace AIModelGenerator

/-- `generateTree` (ai-integration.js 558–577): trunk cylinder plus a
flattened sphere of leaves. -/
def generateTree : PObj :=
  .group v0 v1 v0
    [ .mesh ⟨0, 0.5, 0⟩ v1 v0 (.cylinder 0.1 0.15 1 8) ⟨.hex 0x8B4513⟩,
      .mesh ⟨0, 1.2, 0⟩ ⟨1, 0.8, 1⟩ v0 (.sphere 0.5 12 8) ⟨.hex 0x228B22⟩ ]

/-- `generateBuilding` (ai-integration.js 579–598): box base plus a
4-sided cone roof rotated by π/4 around y. -/
def generateBuilding : PObj :=
  .group v0 v1 v0
    [ .mesh ⟨0, 0.75, 0⟩ v1 v0 (.box 1 1.5 1) ⟨.hex 0x888888⟩,
      .mesh ⟨0, 1.75, 0⟩ v1 ⟨0, 1/4, 0⟩ (.cone 0.7 0.5 4) ⟨.hex 0x654321⟩ ]

/-- `generateCar` (ai-integration.js 600–629): box body plus four wheel
cylinders rotated by π/2 around z. -/
def generateCar : PObj :=
  .group v0 v1 v0
    [ .mesh ⟨0, 0.4, 0⟩ v1 v0 (.box 2 0.5 1) ⟨.hex 0xFF4444⟩,
      .mesh ⟨-0.6, 0.15, 0.4⟩ v1 ⟨0, 0, 1/2⟩ (.cylinder 0.15 0.15 0.1 12) ⟨.hex 0x333333⟩,
      .mesh ⟨0.6, 0.15, 0.4⟩ v1 ⟨0, 0, 1/2⟩ (.cylinder 0.15 0.15 0.1 12) ⟨.hex 0x333333⟩,
      .mesh ⟨-0.6, 0.15, -0.4⟩ v1 ⟨0, 0, 1/2⟩ (.cylinder 0.15 0.15 0.1 12) ⟨.hex 0x333333⟩,
      .mesh ⟨0.6, 0.15, -0.4⟩ v1 ⟨0, 0, 1/2⟩ (.cylinder 0.15 0.15 0.1 12) ⟨.hex 0x333333⟩ ]

/-- The own entries of the `shapeMap` literal of `generateBasicShape`
(ai-integration.js 633–637): a word's geometry factory. -/
def shapeMap : List (String × Geometry) :=
  [ ("cube", .box 1 1 1), ("sphere", .sphere 0.5 32 32),
    ("cylinder", .cylinder 0.5 0.5 1 32) ]

/-- The property read `shapeMap[word]`, prototype chain included. -/
def shapeMapLookup (w : String) : JsProp Geometry := jsPropGet shapeMap w

/-- The own entries of the `colorMap` literal of `generateBasicShape`
(ai-integration.js 639–644). -/
def colorMap : List (String × Nat) :=
  [ ("red", 0xFF4444), ("blue", 0x4444FF), ("green", 0x44FF44),
    ("yellow", 0xFFFF44) ]

/-- The property read `colorMap[word]`, prototype chain included. -/
def colorMapLookup (w : String) : JsProp Nat := jsPropGet colorMap w

/-- The geometry slot of the basic-shape mesh: a THREE geometry, or the
plain object returned by `Object()` when the first truthy `shapeMap`
read is the inherited `constructor` member — not a geometry at all. -/
inductive JsGeometry where
  | geom (g : Geometry)
  | plainObject
deriving DecidableEq, Repr

/-- The shape loop of `generateBasicShape` (ai-integration.js 650–656)
together with the call `geometry = shapeMap[word]()` on its first truthy
read: the table's geometry for an own entry, `Object()` (a plain object)
for the inherited `constructor`, a thrown `TypeError` for `__proto__`
(`Object.prototype` is not a function), and the default box when no read
is truthy. -/
def selectGeometry : List String → Except Unit JsGeometry
  | [] => .ok (.geom (.box 1 1 1))
  | w :: ws =>
    match shapeMapLookup w with
    | .own g => .ok (.geom g)
    | .protoMember k => if k = "constructor" then .ok .plainObject else .error ()
    | .undefined => selectGeometry ws

/-- The color loop of `generateBasicShape` (ai-integration.js 658–663):
the first truthy `colorMap[word]` read is assigned as the color without
being called, so an inherited member is stored as-is; the default is
`0x888888`. -/
def selectColor : List String → JsVal Nat
  | [] => .val 0x888888
  | w :: ws =>
    match colorMapLookup w with
    | .own c => .val c
    | .protoMember k => .protoMember k
    | .undefined => selectColor ws

/-- The mesh built by `generateBasicShape`: `new THREE.Mesh(geometry,
material)` with the selected geometry and color slots (either of which a
prototype-chain read can pollute). -/
structure BasicMesh where
  geometry : JsGeometry
  color : JsVal Nat
deriving DecidableEq, Repr

/-- `generateBasicShape(words)` (ai-integration.js 631–667): throws when
the shape loop's call does, and otherwise returns the single mesh. -/
def generateBasicShape (words : List String) : Except Unit BasicMesh :=
  (selectGeometry words).map (fun g => ⟨g, selectColor words⟩)

/-- A value returned by `generateProceduralModel`: one of the
hand-authored templates, or the single mesh of `generateBasicShape`. -/
inductive ProcModel where
  | template (m : PObj)
  | basic (b : BasicMesh)

/-- The body of `generateProceduralModel` (ai-integration.js 542–556)
after the initial tokenization: keyword dispatch to the hand-authored
templates, with `generateBasicShape` as the default branch. -/
def generateProceduralModelWords (words : List String) : Except Unit ProcModel :=
  if words.contains "tree" || words.contains "plant" then .ok (.template generateTree)
  else if words.contains "building" || words.contains "house" then
    .ok (.template generateBuilding)
  else if words.contains "car" || words.contains "vehicle" then .ok (.template generateCar)
  else (generateBasicShape words).map .basic

/-- `generateProceduralModel(prompt)` (ai-integration.js 542–556). -/
def generateProceduralModel (prompt : String) : Except Unit ProcModel :=
  generateProceduralModelWords (tokenize prompt)

/-- The basic-shape mesh of a synthesis result, when that is what it is. -/
def basicOf : Except Unit ProcModel → Option BasicMesh
  | .ok (.basic b) => some b
  | _ => none

/-- Whether the synthesis threw a `TypeError` instead of returning. -/
def threwTypeError : Except Unit ProcModel → Bool
  | .error _ => true
  | .ok _ => false

end AIModelGenerator

/-- C2, refuted: procedural synthesis is not total.  The property read
`shapeMap[word]` walks the prototype chain, so for the token
`"__proto__"` the first truthy hit is `Object.prototype` — not a
function — and the call `shapeMap[word]()` throws a `TypeError`; for the
token `"constructor"` that call is `Object()`, so the mesh is built
around a plain object instead of a box primitive (and the color slot
stores the inherited member).  Away from these two tokens the claimed
behavior holds, as the last two conjuncts illustrate: with no matching
keyword the result is a single default box mesh, and the keyword tables
drive the geometry and color. -/
theorem procedural_synthesis_prototype_pollution :
    AIModelGenerator.threwTypeError
        (AIModelGenerator.generateProceduralModel "__proto__") = true ∧
      AIModelGenerator.basicOf (AIModelGenerator.generateProceduralModel "constructor") =
        some ⟨.plainObject, .protoMember "constructor"⟩ ∧
      AIModelGenerator.basicOf (AIModelGenerator.generateProceduralModel "weird thing") =
        some ⟨.geom (.box 1 1 1), .val 0x888888⟩ ∧
      AIModelGenerator.basicOf (AIModelGenerator.generateProceduralModel "red cube") =
        some ⟨.geom (.box 1 1 1), .val 0xFF4444⟩ := by
  refine ⟨by decide, by decide, by decide, by decide⟩

/-! ## `AIModelGenerator` — the model cache
(`src/js/ai-integration.js`, lines 509–537)

The cache is a JavaScript `Map` from prompt strings to
`{model, timestamp, hits}` records; it is embedded as an association list
in insertion order, which is exactly the iteration order of a `Map`.
Models themselves are opaque handles here (`Model := Nat`): the cache
never inspects them, and `model.clone()` produces an equal value (the
aliasing structure of clones is studied separately with the heap model
below). -/

namespace ModelCache

/-- Opaque renderable-model handles, as stored by the cache. -/
abbrev Model := Nat

/-- A cache entry: `{ model: model, timestamp: Date.now(), hits: ... }`. -/
structure CacheEntry where
  model : Model
  timestamp : Nat
  hits : Nat
deriving DecidableEq, Repr

/-- The entries of the `modelCache` Map, in insertion order. -/
abbrev EntryList := List (String × CacheEntry)

/-- `Map.get`: the value of the first (and only) entry with the key. -/
def mapGet : EntryList → String → Option CacheEntry
  | [], _ => none
  | kv :: rest, k => if kv.1 = k then some kv.2 else mapGet rest k

/-- `Map.set`: overwrite in place if the key is present (a JavaScript
`Map` keeps the original insertion position), otherwise append at the
end. -/
def mapSet : EntryList → String → CacheEntry → EntryList
  | [], k, v => [(k, v)]
  | kv :: rest, k, v => if kv.1 = k then (k, v) :: rest else kv :: mapSet rest k v

/-- `Map.delete`: remove the entry with the key, preserving the order of
the remaining entries. -/
def mapDelete : EntryList → String → EntryList
  | [], _ => []
  | kv :: rest, k => if kv.1 = k then rest else kv :: mapDelete rest k

/-- The `modelCache` state. -/
structure AICache where
  entries : EntryList
deriving DecidableEq, Repr

/-- The empty cache (`new Map()`). -/
def emptyCache : AICache := ⟨[]⟩

/-- `Array.from(this.modelCache.entries()).sort((a, b) =>
a.timestamp - b.timestamp)[0]` — ECMAScript sorts are stable, so this is
the first entry holding the minimal timestamp. -/
def oldestEntry : EntryList → Option (String × CacheEntry)
  | [] => none
  | kv :: rest =>
    match oldestEntry rest with
    | none => some kv
    | some best => if best.2.timestamp < kv.2.timestamp then some best else some kv

/-- `cacheModel(prompt, model)` (ai-integration.js 512–525): store the
entry with `hits: 1` and the current time, then, when the size exceeds 50,
delete the entry with the oldest timestamp.  `Date.now()` is passed in
explicitly as `now`. -/
def cacheModel (c : AICache) (prompt : String) (model : Model) (now : Nat) : AICache :=
  let l := mapSet c.entries prompt ⟨model, now, 1⟩
  if 50 < l.length then
    match oldestEntry l with
    | some kv => ⟨mapDelete l kv.1⟩
    | none => ⟨l⟩
  else ⟨l⟩

/-- `getCachedModel(prompt)` (ai-integration.js 530–537): on a hit,
increment the entry's `hits` counter in place and return a clone of the
stored model; on a miss return `null` and leave the cache unchanged. -/
def getCachedModel (c : AICache) (prompt : String) : Option Model × AICache :=
  match mapGet c.entries prompt with
  | some e => (some e.model, ⟨mapSet c.entries prompt { e with hits := e.hits + 1 }⟩)
  | none => (none, c)

end ModelCache

/-! ## `tryAIGeneration` — the strategy loop of the orchestrator
(`src/js/main.js`, lines 1190–1250)

The loop tries, in this order: "GLB Models"
(`aiGenerator.generateWithGLBLibrary` — prebuilt asset catalog),
"Hugging Face" (`aiGenerator.generateWithShapE` — remote inference),
"Enhanced Procedural" (`generateAIStyledProceduralModel`) and
"Basic Procedural" (`generateProceduralModel`), each raced against a
per-strategy timeout.

`generateWithGLBLibrary` is not defined on `AIModelGenerator` anywhere in
the repository (`grep` finds only the call site in main.js), so invoking
the first strategy always throws a `TypeError`, which the `catch` of the
loop treats as a strategy failure: the "GLB Models" outcome is therefore
constantly `none` in this embedding.  The other three outcomes are
abstract parameters: `none` covers "threw, timed out, or resolved to
null", `some m` covers "resolved to the model `m` within the timeout". -/

namespace Orchestrator

open ModelCache

/-- The four strategies of the loop, in source order. -/
inductive Strategy where
  | glbModels
  | huggingFace
  | enhancedProc
  | basicProc
deriving DecidableEq, Repr

/-- Abstract outcomes of the three strategies that can run.  (The GLB
strategy has no outcome parameter: its attempt always throws, see above.) -/
structure StratEnv where
  hf : Option Model
  enh : Option Model
  bas : Option Model

/-- The outcome observed by the loop for one strategy attempt. -/
def stratOutcome (env : StratEnv) : Strategy → Option Model
  | .glbModels => none
  | .huggingFace => env.hf
  | .enhancedProc => env.enh
  | .basicProc => env.bas

/-- The `strategies` array of `tryAIGeneration`, in priority order. -/
def strategyOrder : List Strategy :=
  [.glbModels, .huggingFace, .enhancedProc, .basicProc]

/-- Where a returned model came from: the cache check, or a strategy. -/
inductive GenSource where
  | fromCache
  | fromStrategy (s : Strategy)
deriving DecidableEq, Repr

/-- Result of a `tryAIGeneration` call: the returned model (with its
provenance), the cache state afterwards, and the list of strategies that
were attempted.  Network requests happen only inside strategy attempts
(the GLB loader fetch and the Hugging Face fetch), so an empty `attempted`
list means no network call was issued. -/
structure TryResult where
  outcome : Option (GenSource × Model)
  cache : AICache
  attempted : List Strategy
deriving Repr

/-- The `for (const strategy of strategies)` loop (main.js 1222–1246):
return the first successful model, caching it under the prompt; a failure
advances to the next strategy. -/
def runStrategies (c : AICache) (env : StratEnv) (prompt : String) (now : Nat) :
    List Strategy → TryResult
  | [] => ⟨none, c, []⟩
  | s :: rest =>
    match stratOutcome env s with
    | some m => ⟨some (.fromStrategy s, m), cacheModel c prompt m now, [s]⟩
    | none =>
      let r := runStrategies c env prompt now rest
      ⟨r.outcome, r.cache, s :: r.attempted⟩

/-- `tryAIGeneration(prompt)` (main.js 1190–1250): check the cache first
(returning the cached clone immediately on a hit), otherwise run the
strategy loop. -/
def tryAIGeneration (c : AICache) (env : StratEnv) (prompt : String) (now : Nat) :
    TryResult :=
  match getCachedModel c prompt with
  | (some m, c') => ⟨some (.fromCache, m), c', []⟩
  | (none, _) => runStrategies c env prompt now strategyOrder

end Orchestrator

/-! ## Cache lemmas -/

namespace ModelCache

@[simp] theorem mapGet_nil (k : String) : mapGet [] k = none := rfl

@[simp] theorem mapGet_cons (kv : String × CacheEntry) (rest : EntryList) (k : String) :
    mapGet (kv :: rest) k = if kv.1 = k then some kv.2 else mapGet rest k := rfl

theorem mapGet_eq_none_iff {l : EntryList} {k : String} :
    mapGet l k = none ↔ ∀ kv ∈ l, kv.1 ≠ k := by
  induction l with
  | nil => simp
  | cons kv rest ih =>
    by_cases hk : kv.1 = k
    · simp [hk]
    · simp [hk, ih]

theorem mapSet_of_mapGet_eq_none {l : EntryList} {k : String} (v : CacheEntry)
    (h : mapGet l k = none) : mapSet l k v = l ++ [(k, v)] := by
  induction l with
  | nil => rfl
  | cons kv rest ih =>
    simp only [mapGet_cons] at h
    by_cases hk : kv.1 = k
    · rw [if_pos hk] at h; simp at h
    · rw [if_neg hk] at h
      simp only [mapSet, hk, if_false, List.cons_append, List.cons.injEq, true_and]
      exact ih h

theorem mapGet_append_single_self {l : EntryList} {k : String} (v : CacheEntry)
    (h : mapGet l k = none) : mapGet (l ++ [(k, v)]) k = some v := by
  induction l with
  | nil => simp
  | cons kv rest ih =>
    simp only [mapGet_cons] at h
    by_cases hk : kv.1 = k
    · rw [if_pos hk] at h; simp at h
    · rw [if_neg hk] at h
      simp only [List.cons_append, mapGet_cons, hk, if_false]
      exact ih h

theorem mapGet_mapSet_self (l : EntryList) (k : String) (v : CacheEntry) :
    mapGet (mapSet l k v) k = some v := by
  induction l with
  | nil => simp [mapSet]
  | cons kv rest ih =>
    by_cases hk : kv.1 = k
    · simp [mapSet, hk]
    · simp [mapSet, hk, ih]

theorem cacheModel_entries_of_miss {c : AICache} {p : String} {m : Model} {now : Nat}
    (h : mapGet c.entries p = none) (hlen : c.entries.length < 50) :
    (cacheModel c p m now).entries = c.entries ++ [(p, ⟨m, now, 1⟩)] := by
  simp only [cacheModel]
  rw [mapSet_of_mapGet_eq_none _ h]
  simp only [List.length_append, List.length_singleton]
  rw [if_neg (by omega : ¬ (50 < c.entries.length + 1))]

end ModelCache

namespace Orchestrator

open ModelCache

/-- When the strategy loop succeeds with model `m`, the cache afterwards
is exactly `cacheModel c prompt m now`. -/
theorem runStrategies_success_cache (c : AICache) (env : StratEnv) (prompt : String)
    (now : Nat) (ss : List Strategy) :
    ∀ src m, (runStrategies c env prompt now ss).outcome = some (src, m) →
      (runStrategies c env prompt now ss).cache = cacheModel c prompt m now := by
  induction ss with
  | nil => simp [runStrategies]
  | cons s rest ih =>
    intro src m h
    cases ho : stratOutcome env s with
    | some m0 =>
      simp only [runStrategies, ho] at h ⊢
      obtain ⟨-, rfl⟩ : GenSource.fromStrategy s = src ∧ m0 = m := by
        simpa using h
      rfl
    | none =>
      simp only [runStrategies, ho] at h ⊢
      exact ih src m h

end Orchestrator

/-! ## Claim C1 — strategy priority order -/

/-- Counterexample to C1.  The claim states that on a cache miss the
orchestrator attempts remote inference first and the prebuilt asset
catalog second.  In `tryAIGeneration` the attempt order is the opposite:
with an empty cache and a succeeding Inference Client, the attempted list
is `["GLB Models", "Hugging Face"]` — the prebuilt-asset strategy is
attempted first, i.e. the first attempted strategy is not inference. -/
theorem strategy_priority_counterexample :
    (Orchestrator.tryAIGeneration ModelCache.emptyCache ⟨some 7, some 8, some 9⟩
        "golden pyramid" 0).attempted =
      [Orchestrator.Strategy.glbModels, Orchestrator.Strategy.huggingFace] ∧
    (Orchestrator.tryAIGeneration ModelCache.emptyCache ⟨some 7, some 8, some 9⟩
        "golden pyramid" 0).attempted.head? ≠
      some Orchestrator.Strategy.huggingFace := by
  constructor
  · rfl
  · decide

/-- C1, amended.  On a cache miss the strategies are attempted in the
fixed order prebuilt asset catalog ("GLB Models") → remote inference
("Hugging Face") → enhanced procedural → basic procedural; the asset
strategy always fails at once (`generateWithGLBLibrary` is not defined on
`AIModelGenerator`), so whenever the Inference Client succeeds with `m`,
the returned result originates from the inference strategy and carries
exactly `m` — never from a procedural strategy. -/
theorem strategy_priority_amended (c : ModelCache.AICache) (env : Orchestrator.StratEnv)
    (p : String) (now : Nat) (m : ModelCache.Model)
    (hmiss : ModelCache.mapGet c.entries p = none) (hhf : env.hf = some m) :
    (Orchestrator.tryAIGeneration c env p now).outcome =
        some (.fromStrategy .huggingFace, m) ∧
      (Orchestrator.tryAIGeneration c env p now).attempted =
        [Orchestrator.Strategy.glbModels, Orchestrator.Strategy.huggingFace] := by
  simp [Orchestrator.tryAIGeneration, ModelCache.getCachedModel, hmiss,
    Orchestrator.runStrategies, Orchestrator.strategyOrder, Orchestrator.stratOutcome, hhf]

/-- Witness for the amended C1 at a concrete cache, environment and
prompt. -/
theorem strategy_priority_amended_witness :
    (ModelCache.mapGet ModelCache.emptyCache.entries "red cube" = none ∧
        (Orchestrator.StratEnv.mk (some 5) none none).hf = some 5) ∧
      ((Orchestrator.tryAIGeneration ModelCache.emptyCache ⟨some 5, none, none⟩
            "red cube" 3).outcome = some (.fromStrategy .huggingFace, 5) ∧
        (Orchestrator.tryAIGeneration ModelCache.emptyCache ⟨some 5, none, none⟩
            "red cube" 3).attempted =
          [Orchestrator.Strategy.glbModels, Orchestrator.Strategy.huggingFace]) :=
  ⟨⟨by decide, by decide⟩,
    strategy_priority_amended ModelCache.emptyCache ⟨some 5, none, none⟩ "red cube" 3 5
      (by decide) (by decide)⟩

/-! ## Claim C3 — second call with a cached prompt -/

/-- C3.  If a first `tryAIGeneration` call on a prompt that is not in the
cache (cache not yet full) succeeds with model `m`, then a second call
with the same prompt returns the clone of the cached model immediately:
its outcome is `m` tagged as coming from the cache, no strategy is
attempted (hence no network request is issued — network traffic only
happens inside strategy attempts), and the entry's hit counter has been
incremented from 1 to 2. -/
theorem cached_prompt_second_call (c0 : ModelCache.AICache) (env : Orchestrator.StratEnv)
    (p : String) (n1 n2 : Nat) (src : Orchestrator.GenSource) (m : ModelCache.Model)
    (hmiss : ModelCache.mapGet c0.entries p = none)
    (hlen : c0.entries.length < 50)
    (hsucc : (Orchestrator.tryAIGeneration c0 env p n1).outcome = some (src, m)) :
    (Orchestrator.tryAIGeneration (Orchestrator.tryAIGeneration c0 env p n1).cache
          env p n2).outcome = some (.fromCache, m) ∧
      (Orchestrator.tryAIGeneration (Orchestrator.tryAIGeneration c0 env p n1).cache
          env p n2).attempted = [] ∧
      (ModelCache.mapGet (Orchestrator.tryAIGeneration
            (Orchestrator.tryAIGeneration c0 env p n1).cache env p n2).cache.entries p).map
          (fun e => e.hits) = some 2 := by
  have hfirst : Orchestrator.tryAIGeneration c0 env p n1 =
      Orchestrator.runStrategies c0 env p n1 Orchestrator.strategyOrder := by
    simp [Orchestrator.tryAIGeneration, ModelCache.getCachedModel, hmiss]
  have hcache1 : (Orchestrator.tryAIGeneration c0 env p n1).cache =
      ModelCache.cacheModel c0 p m n1 := by
    rw [hfirst] at hsucc ⊢
    exact Orchestrator.runStrategies_success_cache c0 env p n1 _ src m hsucc
  have hget : ModelCache.mapGet (Orchestrator.tryAIGeneration c0 env p n1).cache.entries p =
      some ⟨m, n1, 1⟩ := by
    rw [hcache1, ModelCache.cacheModel_entries_of_miss hmiss hlen]
    exact ModelCache.mapGet_append_single_self _ hmiss
  set c1 := (Orchestrator.tryAIGeneration c0 env p n1).cache with hc1
  clear_value c1
  refine ⟨?_, ?_, ?_⟩
  · simp [Orchestrator.tryAIGeneration, ModelCache.getCachedModel, hget]
  · simp [Orchestrator.tryAIGeneration, ModelCache.getCachedModel, hget]
  · simp only [Orchestrator.tryAIGeneration, ModelCache.getCachedModel, hget]
    rw [ModelCache.mapGet_mapSet_self]
    rfl

/-- Witness for C3: the prompt `"golden pyramid"` generated twice in a
row against an environment in which only the enhanced-procedural strategy
succeeds. -/
theorem cached_prompt_second_call_witness :
    (ModelCache.mapGet ModelCache.emptyCache.entries "golden pyramid" = none ∧
        ModelCache.emptyCache.entries.length < 50 ∧
        (Orchestrator.tryAIGeneration ModelCache.emptyCache ⟨none, some 5, none⟩
            "golden pyramid" 0).outcome = some (.fromStrategy .enhancedProc, 5)) ∧
      ((Orchestrator.tryAIGeneration
            (Orchestrator.tryAIGeneration ModelCache.emptyCache ⟨none, some 5, none⟩
              "golden pyramid" 0).cache ⟨none, some 5, none⟩ "golden pyramid" 1).outcome =
          some (.fromCache, 5) ∧
        (Orchestrator.tryAIGeneration
            (Orchestrator.tryAIGeneration ModelCache.emptyCache ⟨none, some 5, none⟩
              "golden pyramid" 0).cache ⟨none, some 5, none⟩ "golden pyramid" 1).attempted = [] ∧
        (ModelCache.mapGet (Orchestrator.tryAIGeneration
              (Orchestrator.tryAIGeneration ModelCache.emptyCache ⟨none, some 5, none⟩
                "golden pyramid" 0).cache ⟨none, some 5, none⟩
              "golden pyramid" 1).cache.entries "golden pyramid").map
            (fun e => e.hits) = some 2) :=
  ⟨⟨by decide, by decide, by decide⟩,
    cached_prompt_second_call ModelCache.emptyCache ⟨none, some 5, none⟩ "golden pyramid" 0 1
      (.fromStrategy .enhancedProc) 5 (by decide) (by decide) (by decide)⟩

/-! ## Claim C4 — bounded cache and eviction ranking -/

namespace ModelCache

theorem oldestEntry_mem {l : EntryList} {kv : String × CacheEntry}
    (h : oldestEntry l = some kv) : kv ∈ l := by
  induction l generalizing kv with
  | nil => simp [oldestEntry] at h
  | cons a rest ih =>
    simp only [oldestEntry] at h
    cases hr : oldestEntry rest with
    | none =>
      rw [hr] at h
      obtain rfl : a = kv := by simpa using h
      exact List.mem_cons_self a rest
    | some best =>
      rw [hr] at h
      by_cases hlt : best.2.timestamp < a.2.timestamp
      · obtain rfl : best = kv := by simpa [hlt] using h
        exact List.mem_cons_of_mem a (ih hr)
      · obtain rfl : a = kv := by simpa [hlt] using h
        exact List.mem_cons_self a rest

/-- The stable sort of `cacheModel` selects the first entry achieving the
minimal timestamp: if every entry before `(k, ek)` has a strictly larger
timestamp and every entry after it has a larger-or-equal one, the computed
oldest entry is `(k, ek)`. -/
theorem oldestEntry_first_min (l₁ l₂ : EntryList) (k : String) (ek : CacheEntry)
    (h₁ : ∀ e ∈ l₁, ek.timestamp < e.2.timestamp)
    (h₂ : ∀ e ∈ l₂, ek.timestamp ≤ e.2.timestamp) :
    oldestEntry (l₁ ++ (k, ek) :: l₂) = some (k, ek) := by
  induction l₁ with
  | nil =>
    simp only [List.nil_append, oldestEntry]
    cases hr : oldestEntry l₂ with
    | none => rfl
    | some best =>
      have hb : ek.timestamp ≤ best.2.timestamp := h₂ best (oldestEntry_mem hr)
      show (if best.2.timestamp < ek.timestamp then some best else some (k, ek)) = some (k, ek)
      rw [if_neg (by omega : ¬ best.2.timestamp < ek.timestamp)]
  | cons a l₁ ih =>
    have ha : ek.timestamp < a.2.timestamp := h₁ a (List.mem_cons_self a l₁)
    have ih' := ih (fun e he => h₁ e (List.mem_cons_of_mem a he))
    simp only [List.cons_append, oldestEntry, List.append_eq]
    rw [ih']
    simp [ha]

theorem mapGet_append_of_none {l₁ l₂ : EntryList} {q : String}
    (h : mapGet l₁ q = none) : mapGet (l₁ ++ l₂) q = mapGet l₂ q := by
  induction l₁ with
  | nil => simp
  | cons kv rest ih =>
    simp only [mapGet_cons] at h
    by_cases hk : kv.1 = q
    · rw [if_pos hk] at h; simp at h
    · rw [if_neg hk] at h
      simp only [List.cons_append, mapGet_cons, hk, if_false]
      exact ih h

theorem mapGet_append_of_some {l₁ l₂ : EntryList} {q : String} {e : CacheEntry}
    (h : mapGet l₁ q = some e) : mapGet (l₁ ++ l₂) q = some e := by
  induction l₁ with
  | nil => simp at h
  | cons kv rest ih =>
    simp only [mapGet_cons] at h
    by_cases hk : kv.1 = q
    · rw [if_pos hk] at h
      simp only [List.cons_append, mapGet_cons, hk, if_true]
      exact h
    · rw [if_neg hk] at h
      simp only [List.cons_append, mapGet_cons, hk, if_false]
      exact ih h

theorem mapDelete_append_keyFree {l₁ t : EntryList} {k : String} (ek : CacheEntry)
    (h : ∀ kv ∈ l₁, kv.1 ≠ k) :
    mapDelete (l₁ ++ (k, ek) :: t) k = l₁ ++ t := by
  induction l₁ with
  | nil => simp [mapDelete]
  | cons a rest ih =>
    have ha : a.1 ≠ k := h a (List.mem_cons_self a rest)
    simp only [List.cons_append, mapDelete, ha, if_false, List.cons.injEq, true_and]
    exact ih (fun kv hkv => h kv (List.mem_cons_of_mem a hkv))

end ModelCache

namespace ModelCache

/-- C4, amended (general form).  Inserting an unknown prompt into a full
cache of 50 entries evicts exactly the entry whose *insertion timestamp*
is oldest; all other entries (and the fresh one) are retained.  The
hypotheses constrain only the timestamps — the `hits` counters of the
entries are completely arbitrary — so the hits counter demonstrably does
*not* participate in the eviction ranking, and getting hit recently does
not protect an entry (a cache hit increments `hits` but leaves
`timestamp` unchanged). -/
theorem cacheModel_evicts_oldest (c : AICache) (p : String) (m : Model) (now : Nat)
    (k : String) (ek : CacheEntry)
    (hmiss : mapGet c.entries p = none)
    (hlen : c.entries.length = 50)
    (hnodup : (c.entries.map Prod.fst).Nodup)
    (hkmem : (k, ek) ∈ c.entries)
    (hmin : ∀ q e, (q, e) ∈ c.entries → q ≠ k → ek.timestamp < e.timestamp)
    (hnow : ek.timestamp ≤ now) :
    mapGet (cacheModel c p m now).entries k = none ∧
      mapGet (cacheModel c p m now).entries p = some ⟨m, now, 1⟩ ∧
      (∀ q, q ≠ k → q ≠ p → mapGet (cacheModel c p m now).entries q = mapGet c.entries q) := by
  obtain ⟨l₁, l₂, hdecomp⟩ := List.append_of_mem hkmem
  have hkeys : ∀ kv ∈ c.entries, kv.1 ≠ p := mapGet_eq_none_iff.1 hmiss
  -- keys in l₁ and l₂ differ from k, by key-uniqueness
  have hnd := hnodup
  rw [hdecomp, List.map_append, List.map_cons] at hnd
  have hk₁ : ∀ kv ∈ l₁, kv.1 ≠ k := by
    intro kv hkv heq
    have : k ∈ l₁.map Prod.fst := heq ▸ List.mem_map_of_mem Prod.fst hkv
    rcases List.nodup_append.1 hnd with ⟨-, -, hdisj⟩
    exact hdisj this (List.mem_cons_self k _)
  have hk₂ : ∀ kv ∈ l₂, kv.1 ≠ k := by
    intro kv hkv heq
    have hmem : k ∈ l₂.map Prod.fst := heq ▸ List.mem_map_of_mem Prod.fst hkv
    rcases List.nodup_append.1 hnd with ⟨-, hcons, -⟩
    exact (List.nodup_cons.1 hcons).1 hmem
  -- the appended list and its oldest entry
  have hins : (mapSet c.entries p ⟨m, now, 1⟩) =
      l₁ ++ (k, ek) :: (l₂ ++ [(p, ⟨m, now, 1⟩)]) := by
    rw [mapSet_of_mapGet_eq_none _ hmiss, hdecomp]
    simp
  have hold : oldestEntry (mapSet c.entries p ⟨m, now, 1⟩) = some (k, ek) := by
    rw [hins]
    refine oldestEntry_first_min l₁ _ k ek ?_ ?_
    · intro e he
      exact hmin e.1 e.2 (hdecomp ▸ List.mem_append_left _ he) (hk₁ e he)
    · intro e he
      rcases List.mem_append.1 he with he | he
      · exact le_of_lt (hmin e.1 e.2
          (hdecomp ▸ List.mem_append_right _ (List.mem_cons_of_mem _ he)) (hk₂ e he))
      · simp only [List.mem_singleton] at he
        subst he
        exact hnow
  have hsize : 50 < (mapSet c.entries p ⟨m, now, 1⟩).length := by
    rw [mapSet_of_mapGet_eq_none _ hmiss]
    simp [hlen]
  have hfinal : (cacheModel c p m now).entries = l₁ ++ (l₂ ++ [(p, ⟨m, now, 1⟩)]) := by
    simp only [cacheModel]
    rw [if_pos hsize, hold]
    rw [hins]
    exact mapDelete_append_keyFree ek hk₁
  have hkp : k ≠ p := by
    intro h
    exact hkeys (k, ek) hkmem h
  refine ⟨?_, ?_, ?_⟩
  · rw [hfinal, mapGet_eq_none_iff]
    intro kv hkv
    rcases List.mem_append.1 hkv with h | h
    · exact hk₁ kv h
    · rcases List.mem_append.1 h with h | h
      · exact hk₂ kv h
      · simp only [List.mem_singleton] at h
        subst h
        exact fun hpk => hkp hpk.symm
  · rw [hfinal]
    have h₁ : mapGet l₁ p = none := by
      rw [mapGet_eq_none_iff]
      exact fun kv hkv => hkeys kv (hdecomp ▸ List.mem_append_left _ hkv)
    have h₂ : mapGet l₂ p = none := by
      rw [mapGet_eq_none_iff]
      exact fun kv hkv =>
        hkeys kv (hdecomp ▸ List.mem_append_right _ (List.mem_cons_of_mem _ hkv))
    rw [mapGet_append_of_none h₁, mapGet_append_of_none h₂]
    simp [mapGet]
  · intro q hqk hqp
    rw [hfinal, hdecomp]
    cases h₁ : mapGet l₁ q with
    | some e => rw [mapGet_append_of_some h₁, mapGet_append_of_some h₁]
    | none =>
      rw [mapGet_append_of_none h₁, mapGet_append_of_none h₁]
      have hstep : mapGet ((k, ek) :: l₂) q = mapGet l₂ q := by
        simp [mapGet, (show ¬ k = q from fun h => hqk h.symm)]
      rw [hstep]
      cases h₂ : mapGet l₂ q with
      | some e => rw [mapGet_append_of_some h₂]
      | none =>
        rw [mapGet_append_of_none h₂]
        simp [mapGet, (show ¬ p = q from fun h => hqp h.symm)]

end ModelCache

/-- A full cache: the 50 distinct prompts `"p0"`, …, `"p49"` inserted at
timestamps 0, …, 49, each entry with `hits = 1`. -/
def fullCache : ModelCache.AICache :=
  ⟨(List.range 50).map (fun i => ("p" ++ toString i, ⟨i, i, 1⟩))⟩

/-- `fullCache` after the prompt `"p0"` has been served from the cache
three more times: its hit counter has grown to 4 (it is the
most-recently-used entry), while its timestamp is unchanged. -/
def fullCacheHit : ModelCache.AICache :=
  (ModelCache.getCachedModel
    (ModelCache.getCachedModel
      (ModelCache.getCachedModel fullCache "p0").2 "p0").2 "p0").2

/-- Counterexample to C4.  The claim states that the eviction ranking
uses insertion/last-hit time, never evicts a more-recently-used entry,
and that the hits counter participates in the ranking.  In the code the
eviction sorts by the stored `timestamp` only, which a cache hit does not
refresh: with the cache full, `"p0"` is the most-recently-used entry
(hits = 4, just served three times) yet inserting the 51st prompt evicts
exactly `"p0"`, while `"p1"` — untouched since its insertion — survives. -/
theorem cache_eviction_counterexample :
    (ModelCache.mapGet fullCacheHit.entries "p0").map (fun e => e.hits) = some 4 ∧
      ModelCache.mapGet
        (ModelCache.cacheModel fullCacheHit "p50" 50 50).entries "p0" = none ∧
      (ModelCache.mapGet
        (ModelCache.cacheModel fullCacheHit "p50" 50 50).entries "p1").isSome = true := by
  refine ⟨by decide, by decide, by decide⟩

/-- Witness for the amended C4 at the concrete full cache: inserting the
fresh prompt `"p50"` evicts exactly `"p0"`, the entry with the oldest
insertion timestamp, and keeps everything else. -/
theorem cacheModel_evicts_oldest_witness :
    ModelCache.mapGet (ModelCache.cacheModel fullCache "p50" 50 50).entries "p0" = none ∧
      ModelCache.mapGet (ModelCache.cacheModel fullCache "p50" 50 50).entries "p50" =
        some ⟨50, 50, 1⟩ ∧
      (∀ q, q ≠ "p0" → q ≠ "p50" →
        ModelCache.mapGet (ModelCache.cacheModel fullCache "p50" 50 50).entries q =
          ModelCache.mapGet fullCache.entries q) :=
  ModelCache.cacheModel_evicts_oldest fullCache "p50" 50 50 "p0" ⟨0, 0, 1⟩
    (by decide) (by decide) (by decide) (by decide)
    (by
      intro q e hmem hne
      have hb : ∀ kv ∈ fullCache.entries, kv.1 ≠ "p0" → 0 < kv.2.timestamp := by decide
      exact hb (q, e) hmem hne)
    (by decide)

/-! ## `GLBModelLibrary` — keyword-to-asset resolution
(`src/js/utils/helpers.js`, lines 31–115) -/

namespace GLBModelLibrary

/-- Whether the character list `sub` is a leading segment of `l`. -/
def startsWithChars : List Char → List Char → Bool
  | [], _ => true
  | _ :: _, [] => false
  | a :: as, b :: bs => a = b && startsWithChars as bs

/-- Whether the character list `sub` occurs contiguously in `l`. -/
def hasSubstring : List Char → List Char → Bool
  | sub, [] => sub.isEmpty
  | sub, l@(_ :: t) => startsWithChars sub l || hasSubstring sub t

/-- JavaScript `s.includes(sub)`. -/
def strIncludes (s sub : String) : Bool :=
  hasSubstring sub.data s.data

/-- The `modelMap` of `GLBModelLibrary` (helpers.js 39–67), in insertion
order (the iteration order of `Object.entries`). -/
def modelMap : List (String × String) :=
  [ ("horse", "Horse.glb"), ("parrot", "Parrot.glb"), ("flamingo", "Flamingo.glb"),
    ("stork", "Stork.glb"), ("bird", "Parrot.glb"), ("animal", "Horse.glb"),
    ("car", "ferrari.glb"), ("ferrari", "ferrari.glb"), ("vehicle", "ferrari.glb"),
    ("sports car", "ferrari.glb"),
    ("robot", "RobotExpressive.glb"), ("soldier", "Soldier.glb"),
    ("character", "RobotExpressive.glb"), ("person", "Soldier.glb"),
    ("human", "Soldier.glb"), ("droid", "RobotExpressive.glb"),
    ("android", "RobotExpressive.glb"),
    ("helmet", "DamagedHelmet.glb"), ("armor", "DamagedHelmet.glb"),
    ("sculpture", "DamagedHelmet.glb") ]

/-- `this.modelMap[word]` — a plain-object property read, prototype
chain included. -/
def modelMapGet (w : String) : JsProp String := jsPropGet modelMap w

/-- Phase 1 of `findBestMatch` (helpers.js 81–86): the first word whose
property read `this.modelMap[word]` is truthy; that read is what is
returned — for `constructor`/`__proto__` it is the inherited
`Object.prototype` member, not a model file. -/
def directMatch : List String → Option (JsVal String)
  | [] => none
  | w :: ws =>
    match modelMapGet w with
    | .own f => some (.val f)
    | .protoMember k => some (.protoMember k)
    | .undefined => directMatch ws

/-- Phase 2 of `findBestMatch` (helpers.js 89–94): the first `modelMap`
entry one of whose sides occurs as a substring of (or contains) one of
the words. -/
def partialMatch (words : List String) : Option String :=
  modelMap.findSome? (fun kv =>
    if words.any (fun w => strIncludes w kv.1 || strIncludes kv.1 w) then some kv.2
    else none)

/-- Phase 3 of `findBestMatch` (helpers.js 97–110): category fallbacks. -/
def categoryMatch (words : List String) : Option String :=
  if words.any (fun w => ["animal", "creature", "pet"].contains w) then some "Horse.glb"
  else if words.any (fun w => ["vehicle", "transport", "machine"].contains w) then
    some "ferrari.glb"
  else if words.any (fun w => ["person", "people", "human", "character"].contains w) then
    some "Soldier.glb"
  else none

/-- The body of `findBestMatch` after tokenization: direct match, then
partial match, then category fallback, then the fixed default
`RobotExpressive.glb`. -/
def findBestMatchWords (words : List String) : JsVal String :=
  match directMatch words with
  | some r => r
  | none =>
    match partialMatch words with
    | some model => .val model
    | none =>
      match categoryMatch words with
      | some model => .val model
      | none => .val "RobotExpressive.glb"

/-- `findBestMatch(prompt)` (helpers.js 75–115). -/
def findBestMatch (prompt : String) : JsVal String :=
  findBestMatchWords (tokenize prompt)

/-- The asset files of the catalog. -/
def glbFiles : List String :=
  [ "Horse.glb", "Parrot.glb", "Flamingo.glb", "Stork.glb", "ferrari.glb",
    "RobotExpressive.glb", "Soldier.glb", "DamagedHelmet.glb" ]

/-- Whether a resolver result is one of the catalog's asset files. -/
def isCatalogFile : JsVal String → Bool
  | .val f => glbFiles.contains f
  | .protoMember _ => false

theorem modelMapGet_mem {w f : String} (h : modelMapGet w = .own f) : f ∈ glbFiles := by
  unfold modelMapGet jsPropGet at h
  cases hf : modelMap.find? (fun kv => kv.1 = w) with
  | none =>
    rw [hf] at h
    replace h : (if w ∈ objectProtoKeys then JsProp.protoMember w else JsProp.undefined) =
        JsProp.own f := h
    split at h <;> simp at h
  | some kv =>
    rw [hf] at h
    replace h : kv.2 = f := by simpa using h
    have hm : kv ∈ modelMap := List.mem_of_find?_eq_some hf
    have hall : ∀ g ∈ modelMap.map (fun kv => kv.2), g ∈ glbFiles := by decide
    have : kv.2 ∈ modelMap.map (fun kv => kv.2) := List.mem_map_of_mem _ hm
    exact h ▸ hall kv.2 this

theorem directMatch_val_mem {ws : List String} {f : String}
    (h : directMatch ws = some (.val f)) : f ∈ glbFiles := by
  induction ws with
  | nil => simp [directMatch] at h
  | cons w ws ih =>
    simp only [directMatch] at h
    cases hm : modelMapGet w with
    | own g =>
      rw [hm] at h
      obtain rfl : g = f := by simpa using h
      exact modelMapGet_mem hm
    | protoMember k => rw [hm] at h; simp at h
    | undefined => rw [hm] at h; exact ih (by simpa using h)

theorem partialMatch_mem {ws : List String} {f : String}
    (h : partialMatch ws = some f) : f ∈ glbFiles := by
  obtain ⟨kv, hkv, hval⟩ := List.exists_of_findSome?_eq_some h
  have hall : ∀ g ∈ modelMap.map (fun kv => kv.2), g ∈ glbFiles := by decide
  have hm : kv.2 ∈ modelMap.map (fun kv => kv.2) := List.mem_map_of_mem _ hkv
  split at hval
  · obtain rfl : kv.2 = f := by simpa using hval
    exact hall _ hm
  · simp at hval

theorem categoryMatch_mem {ws : List String} {f : String}
    (h : categoryMatch ws = some f) : f ∈ glbFiles := by
  unfold categoryMatch at h
  split at h
  · obtain rfl : "Horse.glb" = f := by simpa using h
    decide
  · split at h
    · obtain rfl : "ferrari.glb" = f := by simpa using h
      decide
    · split at h
      · obtain rfl : "Soldier.glb" = f := by simpa using h
        decide
      · simp at h

theorem findBestMatchWords_val_mem {ws : List String} {f : String}
    (h : findBestMatchWords ws = .val f) : f ∈ glbFiles := by
  unfold findBestMatchWords at h
  cases hd : directMatch ws with
  | some r =>
    rw [hd] at h
    have h' : r = .val f := by simpa using h
    exact directMatch_val_mem (h' ▸ hd)
  | none =>
    rw [hd] at h
    cases hp : partialMatch ws with
    | some m =>
      rw [hp] at h
      obtain rfl : m = f := by simpa using h
      exact partialMatch_mem hp
    | none =>
      rw [hp] at h
      cases hc : categoryMatch ws with
      | some m =>
        rw [hc] at h
        obtain rfl : m = f := by simpa using h
        exact categoryMatch_mem hc
      | none =>
        rw [hc] at h
        obtain rfl : "RobotExpressive.glb" = f := by simpa using h
        decide

end GLBModelLibrary

/-- C7, refuted: the resolver is not total onto asset identifiers.  The
direct-match phase reads `this.modelMap[word]`, a plain-object property
read that walks the prototype chain, so for the tokens `"constructor"`
and `"__proto__"` it returns the inherited (truthy) `Object.prototype`
member in place of a `.glb` filename — never one of the catalog's asset
files.  Ordinary prompts do resolve as claimed, as the last two
conjuncts illustrate: an exact keyword match wins (`"robot"`), and a
prompt matching no phase gets the fixed default (`"xyz"`). -/
theorem resolver_prototype_leak :
    GLBModelLibrary.findBestMatch "constructor" = .protoMember "constructor" ∧
      GLBModelLibrary.isCatalogFile (GLBModelLibrary.findBestMatch "constructor") = false ∧
      GLBModelLibrary.findBestMatch "__proto__" = .protoMember "__proto__" ∧
      GLBModelLibrary.findBestMatch "robot" = .val "RobotExpressive.glb" ∧
      GLBModelLibrary.findBestMatch "xyz" = .val "RobotExpressive.glb" := by
  refine ⟨by decide, by decide, by decide, by decide, by decide⟩


/-! ## The UI entry point — `generateGeometry`, `generateProcedural`,
`incrementUsage` (`src/js/main.js`, lines 795–839, 881–1006, 1799–1834)

The effects a call produces are recorded explicitly: the model added to
the scene (if any), the usage counters afterwards, the model cache
afterwards (no branch of `generateGeometry` ever touches the
`AIModelGenerator` cache — `cacheModel`/`getCachedModel` are reached only
from `tryAIGeneration`, which `generateGeometry` does not call), the
number of generator invocations (network requests can only happen inside
those), and the notifications shown. -/

namespace MainApp

/-- Per-user usage counters (`getUsageData`). -/
structure UsageData where
  procedural : Nat
  hf : Nat
deriving DecidableEq, Repr

/-- `HUGGINGFACE_CONFIG.limits`.  Only the anonymous procedural bound is
ever compared (`canGenerate` returns `true` for logged-in users before
reading the registered limits, and the AI path checks only token
presence). -/
structure Limits where
  procedural : Nat
deriving DecidableEq, Repr

/-- The notifications `generateGeometry` and its callees can show. -/
inductive Notif where
  | enterDescription
  | limitReached
  | tokenDialog
  | aiCompleted
  | aiFailedFallback
  | proceduralCompleted
  | generationFailed
deriving DecidableEq, Repr

/-- The two procedural generator methods of `aiGenerator`, as observed by
their callers in main.js: the caller wraps each call in a `catch` and an
`if (model)` check, so an outcome is `none` when the call threw or
returned a null-ish value, `some m` when it produced the model `m`. -/
structure GenFns where
  styled : String → Option ModelCache.Model
  basicP : String → Option ModelCache.Model

/-- The network-bound pieces of `generateWithUserToken`:
`window.HuggingFaceService` availability and the outcomes of
`hfService.generate3DModel` and `aiGenerator.generateWithShapE`. -/
structure HFGenEnv where
  serviceAvailable : Bool
  serviceResult : Option ModelCache.Model
  shapEResult : Option ModelCache.Model

/-- The application state read by `generateGeometry`. -/
structure AppState where
  promptInput : String
  hfChecked : Bool
  userToken : Option String
  currentUser : Bool
  limits : Option Limits
  usage : UsageData
  aiGen : Option GenFns
  hfEnv : HFGenEnv
  cache : ModelCache.AICache

/-- The observable effects of one `generateGeometry` call. -/
structure AppEffects where
  modelAdded : Option ModelCache.Model
  usage : UsageData
  cache : ModelCache.AICache
  genCalls : Nat
  notifications : List Notif
deriving DecidableEq, Repr

/-- `canGenerate(useHF)` (main.js 1799–1821). -/
def canGenerate (st : AppState) (useHF : Bool) : Bool :=
  match st.limits with
  | none => true
  | some lim =>
    if useHF then st.userToken.isSome
    else if st.currentUser then true
    else decide (st.usage.procedural < lim.procedural)

/-- Effects of the generation helpers before usage accounting. -/
structure GenEffects where
  modelAdded : Option ModelCache.Model
  genCalls : Nat
  notifications : List Notif
deriving DecidableEq, Repr

/-- `generateProcedural(prompt)` (main.js 954–1006).  When `aiGenerator`
is absent (main.js initialises it to `null` and only sets it when the
`AIModelGenerator` script is available, line 17 / 62–77), the guard at
line 968 skips the styled call but line 974 dereferences
`this.aiGenerator` unconditionally; the resulting `TypeError` is absorbed
by the `catch` at line 998, which shows "Generation failed". -/
def generateProceduralM (aiGen : Option GenFns) (prompt : String) : GenEffects :=
  match aiGen with
  | some g =>
    match g.styled prompt with
    | some m => ⟨some m, 1, [.proceduralCompleted]⟩
    | none =>
      match g.basicP prompt with
      | some m => ⟨some m, 2, [.proceduralCompleted]⟩
      | none => ⟨none, 2, [.generationFailed]⟩
  | none => ⟨none, 0, [.generationFailed]⟩

/-- `generateWithUserToken(prompt, userToken)` (main.js 881–952): try the
HuggingFace service, then Shap-E, then the styled procedural fallback; a
null model throws into the outer catch, which falls back to
`generateProcedural`. -/
def generateWithUserTokenM (st : AppState) (prompt : String) : GenEffects :=
  let r1 : Option ModelCache.Model × Nat :=
    if st.hfEnv.serviceAvailable then (st.hfEnv.serviceResult, 1) else (none, 0)
  let r2 : Option ModelCache.Model × Nat :=
    match r1.1 with
    | some m => (some m, r1.2)
    | none =>
      match st.aiGen with
      | some _ => (st.hfEnv.shapEResult, r1.2 + 1)
      | none => (none, r1.2)
  match r2.1 with
  | some m => ⟨some m, r2.2, [.aiCompleted]⟩
  | none =>
    match st.aiGen with
    | some g =>
      match g.styled prompt with
      | some m => ⟨some m, r2.2 + 1, [.aiCompleted]⟩
      | none =>
        let pe := generateProceduralM st.aiGen prompt
        ⟨pe.modelAdded, r2.2 + 1 + pe.genCalls, .aiFailedFallback :: pe.notifications⟩
    | none =>
      let pe := generateProceduralM none prompt
      ⟨pe.modelAdded, r2.2 + pe.genCalls, .aiFailedFallback :: pe.notifications⟩

/-- `incrementUsage(useHF)` (main.js 1823–1834). -/
def incrementUsage (u : UsageData) (useHF : Bool) : UsageData :=
  if useHF then { u with hf := u.hf + 1 } else { u with procedural := u.procedural + 1 }

/-- `generateGeometry()` (main.js 795–839).  Note that the
`incrementUsage` call at line 838 runs after *every* generation attempt
that passes the prompt and permission checks, whether or not the attempt
produced a model; only the three early returns (empty prompt, permission
denied, token dialog) skip it. -/
def generateGeometryM (st : AppState) : AppEffects :=
  let prompt := trimString st.promptInput
  if prompt = "" then
    ⟨none, st.usage, st.cache, 0, [.enterDescription]⟩
  else if canGenerate st st.hfChecked = false then
    ⟨none, st.usage, st.cache, 0, [.limitReached]⟩
  else if st.hfChecked then
    match st.userToken with
    | some _ =>
      let e := generateWithUserTokenM st prompt
      ⟨e.modelAdded, incrementUsage st.usage true, st.cache, e.genCalls, e.notifications⟩
    | none => ⟨none, st.usage, st.cache, 0, [.tokenDialog]⟩
  else
    let e := generateProceduralM st.aiGen prompt
    ⟨e.modelAdded, incrementUsage st.usage false, st.cache, e.genCalls, e.notifications⟩

end MainApp

/-! ## Claims C8 and C9 — empty prompt and usage accounting -/

/-- C8.  With an empty (or whitespace-only) prompt, `generateGeometry`
fails without consulting anything: no model is produced (the generation
fails with only the "enter a description" warning — the code signals
`GenerationFailed` to the user this way and returns no result), no
generator/strategy is invoked (hence no network call), the model cache is
untouched, and the usage counters are unchanged. -/
theorem empty_prompt_fails_without_strategy (st : MainApp.AppState)
    (h : trimString st.promptInput = "") :
    MainApp.generateGeometryM st =
      ⟨none, st.usage, st.cache, 0, [.enterDescription]⟩ := by
  simp [MainApp.generateGeometryM, h]

/-- Witness for C8 at a whitespace-only prompt. -/
theorem empty_prompt_fails_without_strategy_witness :
    trimString "   " = "" ∧
      MainApp.generateGeometryM
          ⟨"   ", false, none, false, none, ⟨3, 1⟩, none, ⟨false, none, none⟩,
            ModelCache.emptyCache⟩ =
        ⟨none, ⟨3, 1⟩, ModelCache.emptyCache, 0, [.enterDescription]⟩ :=
  ⟨by decide,
    empty_prompt_fails_without_strategy
      ⟨"   ", false, none, false, none, ⟨3, 1⟩, none, ⟨false, none, none⟩,
        ModelCache.emptyCache⟩ (by decide)⟩

/-- The application state exhibiting the C9 bug: a non-empty prompt in
procedural mode, no usage limits configured (generation allowed), and the
`AIModelGenerator` script unavailable (`this.aiGenerator === null`, a
configuration main.js explicitly handles in `initAI`). -/
def failedGenState : MainApp.AppState :=
  ⟨"cube", false, none, false, none, ⟨0, 0⟩, none, ⟨false, none, none⟩,
    ModelCache.emptyCache⟩

/-- C9 is contradicted by the code: evaluating `generateGeometry` at
`failedGenState` produces *no* renderable result (the attempt fails with
the "Generation failed" notification, because `generateProcedural`
dereferences the absent `aiGenerator` and the error is absorbed), yet the
procedural usage counter is incremented from 0 to 1 — `incrementUsage`
at main.js 838 runs after every attempt that passes the input and
permission checks, despite the comment "Increment usage after successful
generation" directly above it. -/
theorem usage_incremented_after_failed_generation :
    (MainApp.generateGeometryM failedGenState).modelAdded = none ∧
      (MainApp.generateGeometryM failedGenState).notifications = [.generationFailed] ∧
      (MainApp.generateGeometryM failedGenState).usage.procedural = 1 := by
  refine ⟨by decide, by decide, by decide⟩

/-! ## `HuggingFaceService` — the Inference Client
(`src/unnamed/part_005`)

`generate3DModel` enhances the prompt and calls `tryMultipleApproaches`,
which runs `directAPICall` (the real network call), `gradioAPICall` (a
Stable-Diffusion image pipeline with a procedural fallback) and
`fallbackGeneration` (pure procedural) in order.

Missing methods: the source calls `this.generateAirplane()`,
`this.generateBoat()` (part_005 lines 690–694), and
`this.generateAdvancedBuilding` / `generateAdvancedAnimal` /
`generateAdvancedAbstract` (lines 943–947), none of which is defined
anywhere in the repository; those calls throw a `TypeError` at run time.
Functions that can reach a missing method therefore return
`Option PObj`, with `none` for the throwing branches.

One modelling caveat: when the image pipeline succeeds and
`generateModelFromImageAnalysis` hits a missing method, the exception is
raised inside the image's `onload` callback, so the conversion promise of
the source never settles at all; this embedding treats that branch as a
plain failure (`none`).  No theorem below depends on that branch: every
theorem about this service fixes `sdAnalysis = none`. -/

namespace HuggingFaceService

/-- `enhancePromptFor3D` (part_005 437–447). -/
def enhancePromptFor3D (prompt : String) : String :=
  "detailed 3D model of " ++ trimString prompt ++
    ", high quality geometry, clean topology, suitable for 3D rendering"

/-- `generateDog` (part_005 510–555). -/
def generateDog : PObj :=
  .group v0 v1 v0
    [ .mesh ⟨0, 0.6, 0⟩ ⟨1.2, 0.8, 0.8⟩ v0 (.sphere 0.4 12 8) ⟨.hex 0x8B4513⟩,
      .mesh ⟨0.5, 0.8, 0⟩ v1 v0 (.sphere 0.25 12 8) ⟨.hex 0x8B4513⟩,
      .mesh ⟨0.4, 1, -0.15⟩ v1 v0 (.sphere 0.1 8 6) ⟨.hex 0x8B4513⟩,
      .mesh ⟨0.4, 1, 0.15⟩ v1 v0 (.sphere 0.1 8 6) ⟨.hex 0x8B4513⟩,
      .mesh ⟨-0.2, 0.2, -0.2⟩ v1 v0 (.cylinder 0.08 0.08 0.4 8) ⟨.hex 0x654321⟩,
      .mesh ⟨0.2, 0.2, -0.2⟩ v1 v0 (.cylinder 0.08 0.08 0.4 8) ⟨.hex 0x654321⟩,
      .mesh ⟨-0.2, 0.2, 0.2⟩ v1 v0 (.cylinder 0.08 0.08 0.4 8) ⟨.hex 0x654321⟩,
      .mesh ⟨0.2, 0.2, 0.2⟩ v1 v0 (.cylinder 0.08 0.08 0.4 8) ⟨.hex 0x654321⟩,
      .mesh ⟨-0.6, 0.8, 0⟩ v1 ⟨0, 0, 1/4⟩ (.cylinder 0.05 0.02 0.3 8) ⟨.hex 0x8B4513⟩ ]

/-- `generateCat` (part_005 557–603). -/
def generateCat : PObj :=
  .group v0 v1 v0
    [ .mesh ⟨0, 0.5, 0⟩ ⟨1.1, 0.7, 0.7⟩ v0 (.sphere 0.35 12 8) ⟨.hex 0x696969⟩,
      .mesh ⟨0.4, 0.7, 0⟩ v1 v0 (.sphere 0.2 12 8) ⟨.hex 0x696969⟩,
      .mesh ⟨0.35, 0.85, -0.1⟩ v1 v0 (.cone 0.08 0.15 8) ⟨.hex 0x696969⟩,
      .mesh ⟨0.35, 0.85, 0.1⟩ v1 v0 (.cone 0.08 0.15 8) ⟨.hex 0x696969⟩,
      .mesh ⟨-0.15, 0.175, -0.15⟩ v1 v0 (.cylinder 0.06 0.06 0.35 8) ⟨.hex 0x555555⟩,
      .mesh ⟨0.15, 0.175, -0.15⟩ v1 v0 (.cylinder 0.06 0.06 0.35 8) ⟨.hex 0x555555⟩,
      .mesh ⟨-0.15, 0.175, 0.15⟩ v1 v0 (.cylinder 0.06 0.06 0.35 8) ⟨.hex 0x555555⟩,
      .mesh ⟨0.15, 0.175, 0.15⟩ v1 v0 (.cylinder 0.06 0.06 0.35 8) ⟨.hex 0x555555⟩,
      .mesh ⟨-0.5, 0.6, 0⟩ v1 ⟨0, 0, 1/6⟩ (.cylinder 0.03 0.01 0.6 8) ⟨.hex 0x696969⟩ ]

/-- `generateBird` (part_005 605–653). -/
def generateBird : PObj :=
  .group v0 v1 v0
    [ .mesh ⟨0, 0.5, 0⟩ ⟨1, 0.8, 0.6⟩ v0 (.sphere 0.2 12 8) ⟨.hex 0x4169E1⟩,
      .mesh ⟨0.25, 0.6, 0⟩ v1 v0 (.sphere 0.12 12 8) ⟨.hex 0x4169E1⟩,
      .mesh ⟨0.35, 0.6, 0⟩ v1 ⟨0, 0, -1/2⟩ (.cone 0.03 0.1 8) ⟨.hex 0xFF8C00⟩,
      .mesh ⟨0, 0.5, -0.25⟩ ⟨0.3, 1, 1.5⟩ v0 (.sphere 0.15 12 8) ⟨.hex 0x1E90FF⟩,
      .mesh ⟨0, 0.5, 0.25⟩ ⟨0.3, 1, 1.5⟩ v0 (.sphere 0.15 12 8) ⟨.hex 0x1E90FF⟩,
      .mesh ⟨0, 0.2, -0.1⟩ v1 v0 (.cylinder 0.02 0.02 0.2 8) ⟨.hex 0xFF8C00⟩,
      .mesh ⟨0, 0.2, 0.1⟩ v1 v0 (.cylinder 0.02 0.02 0.2 8) ⟨.hex 0xFF8C00⟩ ]

/-- `generateGenericAnimal` (part_005 655–685). -/
def generateGenericAnimal : PObj :=
  .group v0 v1 v0
    [ .mesh ⟨0, 0.5, 0⟩ ⟨1.5, 0.8, 0.8⟩ v0 (.sphere 0.3 12 8) ⟨.hex 0x8B7355⟩,
      .mesh ⟨0.4, 0.7, 0⟩ v1 v0 (.sphere 0.2 12 8) ⟨.hex 0x8B7355⟩,
      .mesh ⟨-0.2, 0.2, -0.2⟩ v1 v0 (.cylinder 0.07 0.07 0.4 8) ⟨.hex 0x654321⟩,
      .mesh ⟨0.2, 0.2, -0.2⟩ v1 v0 (.cylinder 0.07 0.07 0.4 8) ⟨.hex 0x654321⟩,
      .mesh ⟨-0.2, 0.2, 0.2⟩ v1 v0 (.cylinder 0.07 0.07 0.4 8) ⟨.hex 0x654321⟩,
      .mesh ⟨0.2, 0.2, 0.2⟩ v1 v0 (.cylinder 0.07 0.07 0.4 8) ⟨.hex 0x654321⟩ ]

/-- `generateAnimal(words)` (part_005 496–508). -/
def generateAnimal (words : List String) : PObj :=
  if words.contains "dog" || words.contains "puppy" then generateDog
  else if words.contains "cat" || words.contains "kitten" then generateCat
  else if words.contains "bird" then generateBird
  else generateGenericAnimal

/-- The body color of `generateDetailedCar` (part_005 705–711). -/
def carColor (words : List String) : Nat :=
  if words.contains "red" then 0xFF4444
  else if words.contains "blue" then 0x4444FF
  else if words.contains "green" then 0x44FF44
  else if words.contains "yellow" then 0xFFFF44
  else 0x888888

/-- A wheel group of `generateDetailedCar`: tire plus rim (part_005
735–753). -/
def carWheel (pos : V3) : PObj :=
  .group pos v1 v0
    [ .mesh v0 v1 ⟨0, 0, 1/2⟩ (.cylinder 0.2 0.2 0.18 16) ⟨.hex 0x222222⟩,
      .mesh v0 v1 ⟨0, 0, 1/2⟩ (.cylinder 0.15 0.15 0.19 8) ⟨.hex 0xC0C0C0⟩ ]

/-- `generateDetailedCar(words)` (part_005 699–757). -/
def generateDetailedCar (words : List String) : PObj :=
  .group v0 v1 v0
    [ .mesh ⟨0, 0.6, 0⟩ v1 v0 (.box 2.5 0.7 1.2) ⟨.hex (carColor words)⟩,
      .mesh ⟨0.8, 1.05, 0⟩ v1 v0 (.box 0.8 0.1 1) ⟨.hex (carColor words)⟩,
      .mesh ⟨0.2, 1.1, 0⟩ v1 v0 (.box 1.2 0.5 1) ⟨.hex 0x87CEEB⟩,
      carWheel ⟨-0.8, 0.25, 0.5⟩, carWheel ⟨0.8, 0.25, 0.5⟩,
      carWheel ⟨-0.8, 0.25, -0.5⟩, carWheel ⟨0.8, 0.25, -0.5⟩ ]

/-- `generateVehicle(words)` (part_005 688–697).  The airplane and boat
branches call `this.generateAirplane()` / `this.generateBoat()`, which do
not exist: those branches throw. -/
def generateVehicle (words : List String) : Option PObj :=
  if words.contains "plane" || words.contains "aircraft" then none
  else if words.contains "boat" || words.contains "ship" then none
  else some (generateDetailedCar words)

/-- `createEnhancedBuilding` (part_005 781–792). -/
def createEnhancedBuilding : PObj :=
  .group v0 v1 v0 [ .mesh ⟨0, 0.75, 0⟩ v1 v0 (.box 1 1.5 1) ⟨.hex 0x888888⟩ ]

/-- `createEnhancedFurniture` (part_005 794–805). -/
def createEnhancedFurniture : PObj :=
  .group v0 v1 v0 [ .mesh ⟨0, 0.5, 0⟩ v1 v0 (.box 0.8 0.1 0.8) ⟨.hex 0x8B4513⟩ ]

/-- `createEnhancedNature` (part_005 807–818). -/
def createEnhancedNature : PObj :=
  .group v0 v1 v0 [ .mesh ⟨0, 0.5, 0⟩ v1 v0 (.cylinder 0.1 0.15 1 8) ⟨.hex 0x8B4513⟩ ]

/-- `createEnhancedAbstract` (part_005 820–831). -/
def createEnhancedAbstract : PObj :=
  .group v0 v1 v0 [ .mesh ⟨0, 0.5, 0⟩ v1 v0 (.sphere 0.5 12 8) ⟨.hex 0x6666FF⟩ ]

/-- The `categories` table of `createEnhancedProceduralModel`
(part_005 456–463), in `Object.entries` order. -/
def categories : List (String × List String) :=
  [ ("animals", ["dog", "cat", "bird", "fish", "animal", "creature"]),
    ("vehicles", ["car", "truck", "plane", "boat", "vehicle", "aircraft"]),
    ("buildings", ["house", "building", "tower", "castle", "structure"]),
    ("furniture", ["chair", "table", "lamp", "desk", "furniture"]),
    ("nature", ["tree", "flower", "mountain", "rock", "plant"]),
    ("abstract", ["sculpture", "art", "abstract", "form", "shape"]) ]

/-- The keyword-count scoring loop of `createEnhancedProceduralModel`
(part_005 465–474): the first category with the strictly largest number
of keyword hits, defaulting to `"abstract"`. -/
def pickCategory (words : List String) : String :=
  (categories.foldl
    (fun acc ck =>
      let score := (ck.2.filter (fun k => words.contains k)).length
      if score > acc.2 then (ck.1, score) else acc)
    ("abstract", 0)).1

/-- The dispatch of `createEnhancedProceduralModel` (part_005 476–491)
after tokenization. -/
def createEnhancedProceduralModelWords (words : List String) : Option PObj :=
  match pickCategory words with
  | "animals" => some (generateAnimal words)
  | "vehicles" => generateVehicle words
  | "buildings" => some createEnhancedBuilding
  | "furniture" => some createEnhancedFurniture
  | "nature" => some createEnhancedNature
  | _ => some createEnhancedAbstract

/-- `createEnhancedProceduralModel(prompt)` (part_005 452–491). -/
def createEnhancedProceduralModel (prompt : String) : Option PObj :=
  createEnhancedProceduralModelWords (tokenize prompt)

end HuggingFaceService

namespace HuggingFaceService

/-- The coarse image analysis of `analyzeImageFor3D` (part_005 880–923):
average color channels and the brightness map. -/
structure ImgAnalysis where
  r : ℚ
  g : ℚ
  b : ℚ
  brightnessMap : List ℚ

/-- Prompt classifiers (part_005 954–968). -/
def isVehiclePrompt (words : List String) : Bool :=
  words.any (fun w => ["car", "truck", "plane", "boat", "vehicle", "aircraft", "ship"].contains w)

def isBuildingPrompt (words : List String) : Bool :=
  words.any (fun w => ["building", "house", "tower", "castle", "structure", "architecture"].contains w)

def isAnimalPrompt (words : List String) : Bool :=
  words.any (fun w => ["dog", "cat", "bird", "animal", "creature", "pet", "wildlife"].contains w)

def isAbstractPrompt (words : List String) : Bool :=
  words.any (fun w => ["abstract", "art", "sculpture", "crystal", "spiral", "form"].contains w)

/-- An advanced wheel group of `generateAdvancedVehicle` (part_005
996–1027). -/
def advancedWheel (pos : V3) : PObj :=
  .group pos v1 v0
    [ .mesh v0 v1 ⟨0, 0, 1/2⟩ (.cylinder 0.25 0.25 0.2 16) ⟨.hex 0x222222⟩,
      .mesh v0 v1 ⟨0, 0, 1/2⟩ (.cylinder 0.18 0.18 0.21 12) ⟨.hex 0xC0C0C0⟩ ]

/-- `generateAdvancedVehicle` (part_005 973–1030); the spoiler is always
added (`if (analysis.brightnessMap)` is truthy for every array). -/
def generateAdvancedVehicle (color : ColorVal) : PObj :=
  .group v0 v1 v0
    [ .mesh ⟨0, 0.6, 0⟩ v1 v0 (.box 2.4 0.8 1.2) ⟨color⟩,
      .mesh ⟨-0.8, 1.2, 0⟩ v1 v0 (.box 1.8 0.1 0.3) ⟨color⟩,
      advancedWheel ⟨-0.9, 0.3, 0.6⟩, advancedWheel ⟨0.9, 0.3, 0.6⟩,
      advancedWheel ⟨-0.9, 0.3, -0.6⟩, advancedWheel ⟨0.9, 0.3, -0.6⟩ ]

/-- `generateAdaptiveModel` (part_005 1035–1080): a base shape picked by
mean brightness, plus an "energy" sphere when red dominates. -/
def generateAdaptiveModel (a : ImgAnalysis) (color : ColorVal) : PObj :=
  let avg : ℚ := (a.brightnessMap.foldl (· + ·) (0 : ℚ)) / (a.brightnessMap.length : ℚ)
  let baseGeometry : Geometry :=
    if avg > 200 then .box 1 1 1
    else if avg > 100 then .sphere 0.6 16 12
    else .cone 0.6 1.2 8
  let base : PObj := .mesh ⟨0, 0.6, 0⟩ v1 v0 baseGeometry ⟨color⟩
  if a.r > a.g ∧ a.r > a.b then
    .group v0 v1 v0
      [ base, .mesh ⟨0, 1.2, 0⟩ v1 v0 (.sphere 0.2 8 6) ⟨.hex 0xFF6666⟩ ]
  else
    .group v0 v1 v0 [ base ]

/-- `generateModelFromImageAnalysis` (part_005 928–951).  The building,
animal and abstract branches call `generateAdvancedBuilding` /
`generateAdvancedAnimal` / `generateAdvancedAbstract`, which do not exist
in the repository: those branches throw. -/
def generateModelFromImageAnalysis (a : ImgAnalysis) (prompt : String) : Option PObj :=
  let words := tokenize prompt
  let color := ColorVal.rgb (a.r / 255) (a.g / 255) (a.b / 255)
  if isVehiclePrompt words then some (generateAdvancedVehicle color)
  else if isBuildingPrompt words then none
  else if isAnimalPrompt words then none
  else if isAbstractPrompt words then none
  else some (generateAdaptiveModel a color)

/-- The network-bound outcomes of one `generate3DModel` call:
`directResult` is what `directAPICall` (part_005 154–252) delivers
(`none` when the fetch fails, the daily limit is hit, or the response is
an error status), and `sdAnalysis` is the image analysis produced by the
Stable-Diffusion pipeline of `gradioAPICall` (`none` when the image
generation or decoding fails). -/
structure HFNetEnv where
  directResult : Option PObj
  sdAnalysis : Option ImgAnalysis

/-- `gradioAPICall` (part_005 257–275): convert the generated image when
there is one, otherwise fall back to the enhanced procedural model. -/
def gradioAPICall (env : HFNetEnv) (prompt : String) : Option PObj :=
  match env.sdAnalysis with
  | some a => generateModelFromImageAnalysis a prompt
  | none => createEnhancedProceduralModel prompt

/-- `fallbackGeneration` (part_005 324–331): after a simulated delay,
the enhanced procedural model. -/
def fallbackGeneration (prompt : String) : Option PObj :=
  createEnhancedProceduralModel prompt

/-- `tryMultipleApproaches` (part_005 125–149): first success wins; a
failure of the last approach propagates. -/
def tryMultipleApproaches (env : HFNetEnv) (prompt : String) : Option PObj :=
  match env.directResult with
  | some m => some m
  | none =>
    match gradioAPICall env prompt with
    | some m => some m
    | none => fallbackGeneration prompt

/-- `generate3DModel(prompt, options)` (part_005 106–120). -/
def generate3DModel (env : HFNetEnv) (prompt : String) : Option PObj :=
  tryMultipleApproaches env (enhancePromptFor3D prompt)

end HuggingFaceService

/-! ## Claim C10 — the Inference Client's unconditional fallback -/

/-- C10 is contradicted by the code at a concrete input.  With every
network approach failing (`directResult = none`, `sdAnalysis = none`):

* for the prompt `"plane toy"`, whose enhanced tokenization contains the
  bare token `"plane"`, the final procedural approach dispatches to
  `this.generateAirplane()` — a method that does not exist — so all three
  approaches throw and `generate3DModel` rejects instead of returning a
  renderable object;
* for an ordinary prompt such as `"red cube"` the fallback does return a
  renderable (procedurally generated) object, which is what the claim
  describes. -/
theorem inference_fallback_missing_generator :
    (HuggingFaceService.generate3DModel ⟨none, none⟩ "plane toy").isNone = true ∧
      (HuggingFaceService.generate3DModel ⟨none, none⟩ "red cube").isSome = true := by
  refine ⟨by decide, by decide⟩

/-! ## The heap model of clone aliasing
(claims about `getCachedModel`'s clones and `GLBModelLibrary.cloneModel`,
helpers.js 185–196)

A three.js object graph aliases its `geometry` and `material` objects:
`Object3D.clone()` creates fresh node objects (so the transform state of
a clone is no longer shared with the original) but copies the `geometry`
and `material` *references* unchanged.  Objects therefore carry numeric
references into an explicit heap; mutating a material or geometry object
is a heap update, visible through every tree holding the reference, while
mutating a transform is a value-level change of one tree. -/

namespace HeapModel

/-- Reference-cell lookup. -/
def alookup {α : Type} : List (Nat × α) → Nat → Option α
  | [], _ => none
  | kv :: rest, i => if kv.1 = i then some kv.2 else alookup rest i

/-- In-place update of the cell with reference `i` (mutating the shared
object all holders of the reference see). -/
def aset {α : Type} (l : List (Nat × α)) (i : Nat) (v : α) : List (Nat × α) :=
  l.map (fun kv => if kv.1 = i then (i, v) else kv)

/-- An object tree holding references to shared geometry/material cells. -/
inductive HObj where
  | mesh (pos scale rot : V3) (geoRef matRef : Nat)
  | group (pos scale rot : V3) (children : List HObj)

/-- The heap of geometry and material objects, with allocation counters. -/
structure Heap where
  geos : List (Nat × Geometry)
  mats : List (Nat × Material)
  nextGeo : Nat
  nextMat : Nat

/-- Mutate the geometry object behind reference `i`. -/
def setGeo (h : Heap) (i : Nat) (g : Geometry) : Heap :=
  { h with geos := aset h.geos i g }

/-- Mutate the material object behind reference `i`. -/
def setMat (h : Heap) (i : Nat) (m : Material) : Heap :=
  { h with mats := aset h.mats i m }

/-- The dereferenced view of an object tree: what the renderer sees. -/
inductive VObj where
  | mesh (pos scale rot : V3) (geom : Option Geometry) (mat : Option Material)
  | group (pos scale rot : V3) (children : List VObj)

mutual

/-- Dereference an object tree through a heap. -/
def renderO (h : Heap) : HObj → VObj
  | .mesh p s r g m => .mesh p s r (alookup h.geos g) (alookup h.mats m)
  | .group p s r cs => .group p s r (renderL h cs)

/-- Dereference a list of object trees. -/
def renderL (h : Heap) : List HObj → List VObj
  | [] => []
  | o :: os => renderO h o :: renderL h os

end

/-- `THREE.Object3D.clone()`: fresh node objects with the same transform
values and the *same* geometry/material references — on this value level
the clone is the identical tree.  (The fresh transform state is what
value semantics already provides: changing a clone's position builds a
new tree value and leaves the original value untouched.) -/
def threeClone (o : HObj) : HObj := o

mutual

/-- The material-cloning traversal of `GLBModelLibrary.cloneModel`
(helpers.js 189–193): for every mesh whose material reference is live, a
fresh material cell is allocated with a copy of the value and the mesh is
repointed at it; geometry references are left shared. -/
def cloneModelO (h : Heap) : HObj → Heap × HObj
  | .mesh p s r g m =>
    match alookup h.mats m with
    | some mv =>
      ({ h with mats := h.mats ++ [(h.nextMat, mv)], nextMat := h.nextMat + 1 },
        .mesh p s r g h.nextMat)
    | none => (h, .mesh p s r g m)
  | .group p s r cs =>
    let r' := cloneModelL h cs
    (r'.1, .group p s r r'.2)

/-- `cloneModelO` over a list of children. -/
def cloneModelL (h : Heap) : List HObj → Heap × List HObj
  | [] => (h, [])
  | o :: os =>
    let r1 := cloneModelO h o
    let r2 := cloneModelL r1.1 os
    (r2.1, r1.2 :: r2.2)

end

/-- `cloneModel(model)` (helpers.js 185–196): `model.clone()` followed by
cloning each mesh's material. -/
def cloneModel (h : Heap) (o : HObj) : Heap × HObj :=
  cloneModelO h (threeClone o)

mutual

/-- All material references appearing in an object tree. -/
def matRefsO : HObj → List Nat
  | .mesh _ _ _ _ m => [m]
  | .group _ _ _ cs => matRefsL cs

/-- All material references appearing in a list of object trees. -/
def matRefsL : List HObj → List Nat
  | [] => []
  | o :: os => matRefsO o ++ matRefsL os

end

/-- The geometry of the root node of a view, when it is a mesh. -/
def rootGeom : VObj → Option Geometry
  | .mesh _ _ _ g _ => g
  | .group _ _ _ _ => none

/-- The material of the root node of a view, when it is a mesh. -/
def rootMat : VObj → Option Material
  | .mesh _ _ _ _ m => m
  | .group _ _ _ _ => none

/-- Every material cell of the heap is below the allocation counter. -/
def HeapWF (h : Heap) : Prop :=
  ∀ kv ∈ h.mats, kv.1 < h.nextMat

/-- Every material reference of the tree points at a live heap cell. -/
def presO (h : Heap) (o : HObj) : Prop :=
  ∀ i ∈ matRefsO o, (alookup h.mats i).isSome

/-- Every material reference of the trees points at a live heap cell. -/
def presL (h : Heap) (os : List HObj) : Prop :=
  ∀ i ∈ matRefsL os, (alookup h.mats i).isSome

theorem alookup_aset_ne {α : Type} (l : List (Nat × α)) (i j : Nat) (v : α)
    (hne : j ≠ i) : alookup (aset l i v) j = alookup l j := by
  induction l with
  | nil => rfl
  | cons kv rest ih =>
    by_cases hk : kv.1 = i
    · simp only [aset, List.map_cons, hk, if_pos rfl, alookup]
      rw [if_neg (fun hij => hne hij.symm), if_neg (fun hij => hne hij.symm)]
      exact ih
    · simp only [aset, List.map_cons, if_neg hk, alookup]
      by_cases hj : kv.1 = j
      · rw [if_pos hj, if_pos hj]
      · rw [if_neg hj, if_neg hj]
        exact ih

theorem alookup_append_of_isSome {α : Type} (l ext : List (Nat × α)) (i : Nat)
    (h : (alookup l i).isSome) : alookup (l ++ ext) i = alookup l i := by
  induction l with
  | nil => simp [alookup] at h
  | cons kv rest ih =>
    by_cases hk : kv.1 = i
    · simp only [List.cons_append, alookup, if_pos hk]
    · simp only [alookup, if_neg hk] at h
      simp only [List.cons_append, alookup, if_neg hk]
      exact ih h

theorem alookup_isSome_lt {h : Heap} {i : Nat} (hwf : HeapWF h)
    (hs : (alookup h.mats i).isSome) : i < h.nextMat := by
  have : ∀ (l : List (Nat × Material)), (alookup l i).isSome → ∃ v, (i, v) ∈ l := by
    intro l
    induction l with
    | nil => intro hc; simp [alookup] at hc
    | cons kv rest ih =>
      intro hc
      by_cases hk : kv.1 = i
      · exact ⟨kv.2, by rw [← hk]; exact List.mem_cons_self kv rest⟩
      · simp only [alookup, if_neg hk] at hc
        obtain ⟨v, hv⟩ := ih hc
        exact ⟨v, List.mem_cons_of_mem kv hv⟩
  obtain ⟨v, hv⟩ := this h.mats hs
  exact hwf (i, v) hv

end HeapModel

namespace HeapModel

mutual

/-- Allocation discipline of the material-cloning traversal: geometries
are untouched, the heap only grows (new cells at fresh references), and
every material reference of the clone is freshly allocated. -/
theorem cloneModelO_spec (h : Heap) (o : HObj) (hwf : HeapWF h) (hp : presO h o) :
    (cloneModelO h o).1.geos = h.geos ∧
      HeapWF (cloneModelO h o).1 ∧
      h.nextMat ≤ (cloneModelO h o).1.nextMat ∧
      (∃ ext, (cloneModelO h o).1.mats = h.mats ++ ext) ∧
      (∀ i ∈ matRefsO (cloneModelO h o).2,
        h.nextMat ≤ i ∧ i < (cloneModelO h o).1.nextMat) := by
  cases o with
  | mesh p s r g m =>
    have hsome : (alookup h.mats m).isSome := hp m (by simp [matRefsO])
    cases hv : alookup h.mats m with
    | none => rw [hv] at hsome; simp at hsome
    | some mv =>
      simp only [cloneModelO, hv]
      refine ⟨by trivial, ?_, by simp, ⟨[(h.nextMat, mv)], by trivial⟩, ?_⟩
      · intro kv hkv
        simp only [List.mem_append, List.mem_singleton] at hkv
        rcases hkv with hkv | hkv
        · have := hwf kv hkv
          simp only []
          omega
        · rw [hkv]
          simp
      · intro i hi
        simp only [matRefsO, List.mem_singleton] at hi
        rw [hi]
        simp
  | group p s r cs =>
    have hp' : presL h cs := by
      intro i hi
      exact hp i (by simpa [matRefsO] using hi)
    have := cloneModelL_spec h cs hwf hp'
    simpa [cloneModelO, matRefsO] using this

/-- `cloneModelO_spec` for child lists. -/
theorem cloneModelL_spec (h : Heap) (os : List HObj) (hwf : HeapWF h) (hp : presL h os) :
    (cloneModelL h os).1.geos = h.geos ∧
      HeapWF (cloneModelL h os).1 ∧
      h.nextMat ≤ (cloneModelL h os).1.nextMat ∧
      (∃ ext, (cloneModelL h os).1.mats = h.mats ++ ext) ∧
      (∀ i ∈ matRefsL (cloneModelL h os).2,
        h.nextMat ≤ i ∧ i < (cloneModelL h os).1.nextMat) := by
  cases os with
  | nil => exact ⟨rfl, hwf, le_refl _, ⟨[], by simp [cloneModelL]⟩, by simp [cloneModelL, matRefsL]⟩
  | cons o os =>
    have hpo : presO h o := fun i hi => hp i (by simp [matRefsL, hi])
    obtain ⟨hg1, hwf1, hle1, ⟨ext1, hext1⟩, hfresh1⟩ := cloneModelO_spec h o hwf hpo
    have hpos : presL (cloneModelO h o).1 os := by
      intro i hi
      have := hp i (by simp [matRefsL, hi])
      rw [hext1, alookup_append_of_isSome _ _ _ this]
      exact this
    obtain ⟨hg2, hwf2, hle2, ⟨ext2, hext2⟩, hfresh2⟩ :=
      cloneModelL_spec (cloneModelO h o).1 os hwf1 hpos
    refine ⟨?_, ?_, ?_, ?_, ?_⟩
    · simp only [cloneModelL]
      rw [hg2, hg1]
    · simpa only [cloneModelL] using hwf2
    · simp only [cloneModelL]
      omega
    · refine ⟨ext1 ++ ext2, ?_⟩
      simp only [cloneModelL]
      rw [hext2, hext1, List.append_assoc]
    · intro i hi
      simp only [cloneModelL, matRefsL, List.mem_append] at hi ⊢
      rcases hi with hi | hi
      · have := hfresh1 i hi
        omega
      · have := hfresh2 i hi
        omega

end

mutual

/-- Dereferencing depends only on the geometry heap and on the material
cells the tree actually references. -/
theorem renderO_congr (h h' : Heap) (o : HObj) (hg : h'.geos = h.geos)
    (hm : ∀ i ∈ matRefsO o, alookup h'.mats i = alookup h.mats i) :
    renderO h' o = renderO h o := by
  cases o with
  | mesh p s r g m =>
    simp only [renderO, hg]
    rw [hm m (by simp [matRefsO])]
  | group p s r cs =>
    simp only [renderO]
    rw [renderL_congr h h' cs hg (fun i hi => hm i (by simpa [matRefsO] using hi))]

/-- `renderO_congr` for child lists. -/
theorem renderL_congr (h h' : Heap) (os : List HObj) (hg : h'.geos = h.geos)
    (hm : ∀ i ∈ matRefsL os, alookup h'.mats i = alookup h.mats i) :
    renderL h' os = renderL h os := by
  cases os with
  | nil => rfl
  | cons o os =>
    simp only [renderL]
    rw [renderO_congr h h' o hg (fun i hi => hm i (by simp [matRefsL, hi])),
      renderL_congr h h' os hg (fun i hi => hm i (by simp [matRefsL, hi]))]

end

end HeapModel

/-! ## Claim C5 — independence of clones -/

/-- The cache entry's model used in the C5 scenario: a single gray box
mesh, with its geometry in heap cell 0 and its material in heap cell 0. -/
def cachedOriginal : HeapModel.HObj := .mesh v0 v1 v0 0 0

/-- The heap owning `cachedOriginal`'s geometry and material. -/
def cacheHeap : HeapModel.Heap :=
  ⟨[(0, .box 1 1 1)], [(0, ⟨.hex 0x888888⟩)], 1, 1⟩

/-- Counterexample to C5.  The clone handed out by `getCachedModel` is
`cached.model.clone()`, a plain `Object3D.clone()`: it shares both the
geometry and the material references with the cached original.  Mutating
the clone's geometry object (cell 0) — or its material object — changes
what the cached original renders as: the original's box geometry becomes
a sphere.  (`GLBModelLibrary.cloneModel` clones materials, but still
shares geometry.) -/
theorem clone_mutation_corrupts_cache :
    HeapModel.threeClone cachedOriginal = cachedOriginal ∧
      HeapModel.renderO (HeapModel.setGeo cacheHeap 0 (.sphere 1 32 32)) cachedOriginal ≠
        HeapModel.renderO cacheHeap cachedOriginal ∧
      HeapModel.renderO (HeapModel.setMat cacheHeap 0 ⟨.hex 0xFF0000⟩) cachedOriginal ≠
        HeapModel.renderO cacheHeap cachedOriginal := by
  refine ⟨rfl, fun hc => ?_, fun hc => ?_⟩
  · have h1 : HeapModel.rootGeom
        (HeapModel.renderO (HeapModel.setGeo cacheHeap 0 (.sphere 1 32 32)) cachedOriginal) =
        some (.sphere 1 32 32) := by decide
    have h2 : HeapModel.rootGeom (HeapModel.renderO cacheHeap cachedOriginal) =
        some (.box 1 1 1) := by decide
    rw [hc, h2] at h1
    simp at h1
  · have h1 : HeapModel.rootMat
        (HeapModel.renderO (HeapModel.setMat cacheHeap 0 ⟨.hex 0xFF0000⟩) cachedOriginal) =
        some ⟨.hex 0xFF0000⟩ := by decide
    have h2 : HeapModel.rootMat (HeapModel.renderO cacheHeap cachedOriginal) =
        some ⟨.hex 0x888888⟩ := by decide
    rw [hc, h2] at h1
    simp at h1

/-- C5, amended.  `GLBModelLibrary.cloneModel` gives the clone fresh
material objects: every material reference of the clone is newly
allocated (so it is not a material reference of the original), and
mutating a clone's material leaves the cached original's rendered view
unchanged.  (Transforms are independent already by `Object3D.clone()`;
geometry, by contrast, remains shared — see the counterexample.) -/
theorem cloneModel_materials_independent (h : HeapModel.Heap) (o : HeapModel.HObj)
    (hwf : HeapModel.HeapWF h) (hp : HeapModel.presO h o)
    (i : Nat) (m' : Material) (hi : i ∈ HeapModel.matRefsO (HeapModel.cloneModel h o).2) :
    i ∉ HeapModel.matRefsO o ∧
      HeapModel.renderO (HeapModel.setMat (HeapModel.cloneModel h o).1 i m') o =
        HeapModel.renderO h o := by
  have hcm : HeapModel.cloneModel h o = HeapModel.cloneModelO h o := rfl
  rw [hcm] at hi ⊢
  obtain ⟨hg, hwf', hle, ⟨ext, hext⟩, hfresh⟩ := HeapModel.cloneModelO_spec h o hwf hp
  obtain ⟨hge, hlt⟩ := hfresh i hi
  constructor
  · intro hmem
    have := HeapModel.alookup_isSome_lt hwf (hp i hmem)
    omega
  · apply HeapModel.renderO_congr
    · exact hg
    · intro j hj
      have hjlt : j < h.nextMat := HeapModel.alookup_isSome_lt hwf (hp j hj)
      have hne : j ≠ i := by omega
      show HeapModel.alookup (HeapModel.aset (HeapModel.cloneModelO h o).1.mats i m') j = _
      rw [HeapModel.alookup_aset_ne _ _ _ _ hne, hext,
        HeapModel.alookup_append_of_isSome _ _ _ (hp j hj)]

/-- Witness for the amended C5: cloning the cached single-mesh model
allocates material cell 1 for the clone; repainting that cell red does
not change the cached original's view. -/
theorem cloneModel_materials_independent_witness :
    1 ∉ HeapModel.matRefsO cachedOriginal ∧
      HeapModel.renderO
          (HeapModel.setMat (HeapModel.cloneModel cacheHeap cachedOriginal).1 1 ⟨.hex 0xFF0000⟩)
          cachedOriginal =
        HeapModel.renderO cacheHeap cachedOriginal :=
  cloneModel_materials_independent cacheHeap cachedOriginal
    (by unfold HeapModel.HeapWF; decide) (by unfold HeapModel.presO; decide) 1
    ⟨.hex 0xFF0000⟩ (by decide)

/-! ## Bounding boxes and post-load normalization
(`GLBModelLibrary.optimizeModel`, helpers.js 201–238, and
`HuggingFaceService.optimizeModel`, part_005 405–432)

`THREE.Box3.setFromObject` computes the axis-aligned bounding box of an
object tree from its transformed geometry.  Here it is modelled for
unrotated trees (every claim theorem carries the corresponding
hypothesis), with each geometry contributing the axis-aligned box of its
continuous surface. -/

/-- `Math.max` on exact rationals, spelled with `if` so that it
evaluates inside the kernel. -/
def maxQ (a b : ℚ) : ℚ := if a ≤ b then b else a

/-- `Math.min` on exact rationals, kernel-evaluable. -/
def minQ (a b : ℚ) : ℚ := if a ≤ b then a else b

/-- `Math.abs` on exact rationals, kernel-evaluable. -/
def absQ (a : ℚ) : ℚ := if a < 0 then -a else a

@[simp] theorem maxQ_eq_max (a b : ℚ) : maxQ a b = max a b := (max_def a b).symm

@[simp] theorem minQ_eq_min (a b : ℚ) : minQ a b = min a b := (min_def a b).symm

@[simp] theorem absQ_eq_abs (a : ℚ) : absQ a = |a| := by
  unfold absQ
  by_cases h : a < 0
  · rw [if_pos h, abs_of_neg h]
  · rw [if_neg h, abs_of_nonneg (not_lt.1 h)]

def vadd (a b : V3) : V3 := ⟨a.x + b.x, a.y + b.y, a.z + b.z⟩

def vsub (a b : V3) : V3 := ⟨a.x - b.x, a.y - b.y, a.z - b.z⟩

def vmul (a b : V3) : V3 := ⟨a.x * b.x, a.y * b.y, a.z * b.z⟩

def vscale (c : ℚ) (a : V3) : V3 := ⟨c * a.x, c * a.y, c * a.z⟩

def vabs (a : V3) : V3 := ⟨absQ a.x, absQ a.y, absQ a.z⟩

def vmin (a b : V3) : V3 := ⟨minQ a.x b.x, minQ a.y b.y, minQ a.z b.z⟩

def vmax (a b : V3) : V3 := ⟨maxQ a.x b.x, maxQ a.y b.y, maxQ a.z b.z⟩

/-- An axis-aligned bounding box. -/
structure Box3 where
  mn : V3
  mx : V3
deriving DecidableEq, Repr

/-- `box.getSize()`. -/
def boxSize (b : Box3) : V3 := vsub b.mx b.mn

/-- `box.getCenter()`. -/
def boxCenter (b : Box3) : V3 := vscale (1/2) (vadd b.mn b.mx)

/-- The largest component: `Math.max(size.x, size.y, size.z)`. -/
def maxDim3 (v : V3) : ℚ := maxQ v.x (maxQ v.y v.z)

/-- Half extents of a geometry's axis-aligned box in local coordinates. -/
def halfExtents : Geometry → V3
  | .box w h d => ⟨w / 2, h / 2, d / 2⟩
  | .sphere r _ _ => ⟨r, r, r⟩
  | .cylinder rt rb h _ => ⟨maxQ rt rb, h / 2, maxQ rt rb⟩
  | .cone r h _ => ⟨r, h / 2, r⟩

/-- Union of two optional boxes (an empty tree has no box). -/
def unionBox : Option Box3 → Option Box3 → Option Box3
  | none, b => b
  | a, none => a
  | some a, some b => some ⟨vmin a.mn b.mn, vmax a.mx b.mx⟩

mutual

/-- The bounding box of an (unrotated) object under an accumulated
parent translation and componentwise scale. -/
def bboxO (pos scale : V3) : PObj → Option Box3
  | .mesh p s _ g _ =>
    some ⟨vsub (vadd pos (vmul scale p)) (vmul (vabs (vmul scale s)) (vabs (halfExtents g))),
          vadd (vadd pos (vmul scale p)) (vmul (vabs (vmul scale s)) (vabs (halfExtents g)))⟩
  | .group p s _ cs => bboxL (vadd pos (vmul scale p)) (vmul scale s) cs

/-- The union of the children's boxes. -/
def bboxL (pos scale : V3) : List PObj → Option Box3
  | [] => none
  | o :: os => unionBox (bboxO pos scale o) (bboxL pos scale os)

end

/-- `new THREE.Box3().setFromObject(model)` for an unrotated tree. -/
def bbox (o : PObj) : Option Box3 := bboxO v0 v1 o

/-- The root node's scale. -/
def rootScale : PObj → V3
  | .mesh _ s _ _ _ => s
  | .group _ s _ _ => s

/-- `model.scale.multiplyScalar(f)`. -/
def mulScale : PObj → ℚ → PObj
  | .mesh p s r g mt, f => .mesh p (vscale f s) r g mt
  | .group p s r cs, f => .group p (vscale f s) r cs

/-- `model.position.sub(d)`. -/
def subPos : PObj → V3 → PObj
  | .mesh p s r g mt, d => .mesh (vsub p d) s r g mt
  | .group p s r cs, d => .group (vsub p d) s r cs

/-- `model.position.y = y`. -/
def setPosY : PObj → ℚ → PObj
  | .mesh p s r g mt, y => .mesh ⟨p.x, y, p.z⟩ s r g mt
  | .group p s r cs, y => .group ⟨p.x, y, p.z⟩ s r cs

namespace GLBModelLibrary

/-- `optimizeModel(model)` (helpers.js 201–238), restricted to the scale
and position normalization (the shadow/encoding flags play no role in
any claim): scale down to 3 units only when the largest dimension
exceeds 3, recenter by the stale box's center scaled by `model.scale.x`,
then set the vertical position to half the new box height. -/
def optimizeModel (model : PObj) : PObj :=
  match bbox model with
  | none => model
  | some box =>
    let m1 :=
      if 3 < maxDim3 (boxSize box) then mulScale model (3 / maxDim3 (boxSize box))
      else model
    let m2 := subPos m1 (vscale (rootScale m1).x (boxCenter box))
    match bbox m2 with
    | none => m2
    | some nb => setPosY m2 ((boxSize nb).y / 2)

end GLBModelLibrary

namespace HuggingFaceService

/-- `optimizeModel(model)` (part_005 405–432), applied to the selected
mesh: always rescale by `2 / maxDim` and set the vertical position to
`-box.min.y * scale` (the box is the one computed before rescaling). -/
def optimizeModel (model : PObj) : PObj :=
  match bbox model with
  | none => model
  | some box =>
    setPosY (mulScale model (2 / maxDim3 (boxSize box)))
      (-(box.mn.y) * (2 / maxDim3 (boxSize box)))

end HuggingFaceService

theorem bbox_mesh (p s r : V3) (g : Geometry) (mt : Material) :
    bbox (.mesh p s r g mt) =
      some ⟨vsub p (vmul (vabs s) (vabs (halfExtents g))),
            vadd p (vmul (vabs s) (vabs (halfExtents g)))⟩ := by
  simp only [bbox, bboxO]
  rw [show vadd v0 (vmul v1 p) = p by simp [vadd, vmul, v0, v1],
    show vmul v1 s = s by simp [vmul, v1]]

theorem size_around (p e : V3) : boxSize ⟨vsub p e, vadd p e⟩ = vscale 2 e := by
  simp only [boxSize, vsub, vadd, vscale, V3.mk.injEq]
  refine ⟨by ring, by ring, by ring⟩

theorem scaled_extents (s hg : V3) (f : ℚ) (hf : 0 ≤ f) :
    vmul (vabs (vscale f s)) hg = vscale f (vmul (vabs s) hg) := by
  simp only [vabs, vscale, vmul, V3.mk.injEq, absQ_eq_abs, abs_mul, abs_of_nonneg hf]
  refine ⟨by ring, by ring, by ring⟩

theorem maxDim3_vscale (f : ℚ) (v : V3) (hf : 0 ≤ f) :
    maxDim3 (vscale f v) = f * maxDim3 v := by
  simp only [maxDim3, vscale, maxQ_eq_max]
  rw [mul_max_of_nonneg _ _ hf, mul_max_of_nonneg _ _ hf]

theorem vscale_vscale (a b : ℚ) (v : V3) : vscale a (vscale b v) = vscale (a * b) v := by
  simp only [vscale, V3.mk.injEq]
  refine ⟨by ring, by ring, by ring⟩

theorem map_size_bbox_mesh (p s r : V3) (g : Geometry) (mt : Material) :
    (bbox (PObj.mesh p s r g mt)).map (fun b => maxDim3 (boxSize b)) =
      some (maxDim3 (vscale 2 (vmul (vabs s) (vabs (halfExtents g))))) := by
  rw [bbox_mesh]
  simp [size_around]

theorem map_miny_bbox_mesh (p s r : V3) (g : Geometry) (mt : Material) :
    (bbox (PObj.mesh p s r g mt)).map (fun b => b.mn.y) =
      some (p.y - (vmul (vabs s) (vabs (halfExtents g))).y) := by
  rw [bbox_mesh]
  rfl

/-! ## Claim C6 — post-load asset normalization -/

/-- A source asset that is a plain unit box at the origin. -/
def unitBoxMesh : PObj := .mesh v0 v1 v0 (.box 1 1 1) ⟨.hex 0x888888⟩

/-- Counterexample to C6.  The claim says every loaded asset is rescaled
so that its largest bounding-box dimension equals 3.0.  For a unit-box
asset, `GLBModelLibrary.optimizeModel` leaves the size untouched (it only
scales assets *larger* than 3 units down), so the largest dimension stays
1 ≠ 3; and `HuggingFaceService.optimizeModel` normalizes to 2 units, not
3, giving 2 ≠ 3. -/
theorem asset_normalization_counterexample :
    (bbox (GLBModelLibrary.optimizeModel unitBoxMesh)).map
        (fun b => maxDim3 (boxSize b)) = some 1 ∧
      (1 : ℚ) ≠ 3 ∧
      (bbox (HuggingFaceService.optimizeModel unitBoxMesh)).map
        (fun b => maxDim3 (boxSize b)) = some 2 ∧
      (2 : ℚ) ≠ 3 := by
  refine ⟨?_, by norm_num, ?_, by norm_num⟩
  · norm_num [unitBoxMesh, GLBModelLibrary.optimizeModel, bbox, bboxO, boxSize, boxCenter,
      maxDim3, maxQ, absQ, halfExtents, vadd, vsub, vmul, vabs, vscale, v0, v1,
      rootScale, mulScale, subPos, setPosY]
  · norm_num [unitBoxMesh, HuggingFaceService.optimizeModel, bbox, bboxO, boxSize,
      maxDim3, maxQ, absQ, halfExtents, vadd, vsub, vmul, vabs, vscale, v0, v1,
      mulScale, setPosY]

/-- C6, amended.  For an unrotated single-mesh asset with a positive
largest dimension `D`:

* `HuggingFaceService.optimizeModel` always rescales so the largest
  bounding-box dimension equals exactly 2 (not 3), and when the mesh sits
  at vertical position 0 the normalized bounding box's minimum is exactly
  on the ground plane;
* `GLBModelLibrary.optimizeModel` rescales only assets larger than 3
  units — those end at exactly 3 — while assets with `D ≤ 3` keep their
  native largest dimension `D`. -/
theorem optimize_model_normalization (p s : V3) (g : Geometry) (mt : Material)
    (hmax : 0 < maxDim3 (vscale 2 (vmul (vabs s) (vabs (halfExtents g))))) :
    (bbox (HuggingFaceService.optimizeModel (PObj.mesh p s v0 g mt))).map
        (fun b => maxDim3 (boxSize b)) = some 2 ∧
      (p.y = 0 →
        (bbox (HuggingFaceService.optimizeModel (PObj.mesh p s v0 g mt))).map
          (fun b => b.mn.y) = some 0) ∧
      (3 < maxDim3 (vscale 2 (vmul (vabs s) (vabs (halfExtents g)))) →
        (bbox (GLBModelLibrary.optimizeModel (PObj.mesh p s v0 g mt))).map
          (fun b => maxDim3 (boxSize b)) = some 3) ∧
      (maxDim3 (vscale 2 (vmul (vabs s) (vabs (halfExtents g)))) ≤ 3 →
        (bbox (GLBModelLibrary.optimizeModel (PObj.mesh p s v0 g mt))).map
          (fun b => maxDim3 (boxSize b)) =
          some (maxDim3 (vscale 2 (vmul (vabs s) (vabs (halfExtents g)))))) := by
  obtain ⟨E, hE⟩ : ∃ E, vmul (vabs s) (vabs (halfExtents g)) = E := ⟨_, rfl⟩
  rw [hE] at hmax ⊢
  have hD0 : maxDim3 (vscale 2 E) ≠ 0 := ne_of_gt hmax
  have hbox : bbox (PObj.mesh p s v0 g mt) = some ⟨vsub p E, vadd p E⟩ := by
    rw [bbox_mesh, hE]
  have hopt : HuggingFaceService.optimizeModel (PObj.mesh p s v0 g mt) =
      PObj.mesh ⟨p.x, -((vsub p E).y) * (2 / maxDim3 (vscale 2 E)), p.z⟩
        (vscale (2 / maxDim3 (vscale 2 E)) s) v0 g mt := by
    unfold HuggingFaceService.optimizeModel
    rw [hbox]
    simp only [size_around, mulScale, setPosY]
  have hf2 : (0 : ℚ) ≤ 2 / maxDim3 (vscale 2 E) :=
    div_nonneg (by norm_num) (le_of_lt hmax)
  refine ⟨?_, ?_, ?_, ?_⟩
  · rw [hopt, map_size_bbox_mesh, scaled_extents _ _ _ hf2, hE, vscale_vscale,
      mul_comm, ← vscale_vscale, maxDim3_vscale _ _ hf2]
    congr 1
    field_simp
  · intro hy
    rw [hopt, map_miny_bbox_mesh, scaled_extents _ _ _ hf2, hE]
    congr 1
    simp only [vsub, vscale, hy]
    ring
  · intro hlt
    have hf3 : (0 : ℚ) ≤ 3 / maxDim3 (vscale 2 E) :=
      div_nonneg (by norm_num) (le_of_lt hmax)
    unfold GLBModelLibrary.optimizeModel
    rw [hbox]
    simp only [size_around]
    rw [if_pos hlt]
    simp only [mulScale, rootScale, subPos]
    rw [bbox_mesh]
    simp only [setPosY]
    rw [map_size_bbox_mesh, scaled_extents _ _ _ hf3, hE, vscale_vscale,
      mul_comm, ← vscale_vscale, maxDim3_vscale _ _ hf3]
    congr 1
    field_simp
  · intro hle
    unfold GLBModelLibrary.optimizeModel
    rw [hbox]
    simp only [size_around]
    rw [if_neg (not_lt.mpr hle)]
    simp only [rootScale, subPos]
    rw [bbox_mesh]
    simp only [setPosY]
    rw [map_size_bbox_mesh, hE]

/-- Witness for the amended C6 at a concrete oversized asset: a
10-unit box at the origin with unit scale (`D = 10 > 3`). -/
theorem optimize_model_normalization_witness :
    (0 : ℚ) <
        maxDim3 (vscale 2 (vmul (vabs v1) (vabs (halfExtents (.box 10 10 10))))) ∧
      ((bbox (HuggingFaceService.optimizeModel
            (PObj.mesh v0 v1 v0 (.box 10 10 10) ⟨.hex 0x888888⟩))).map
          (fun b => maxDim3 (boxSize b)) = some 2 ∧
        ((v0 : V3).y = 0 →
          (bbox (HuggingFaceService.optimizeModel
              (PObj.mesh v0 v1 v0 (.box 10 10 10) ⟨.hex 0x888888⟩))).map
            (fun b => b.mn.y) = some 0) ∧
        (3 < maxDim3 (vscale 2 (vmul (vabs v1) (vabs (halfExtents (.box 10 10 10))))) →
          (bbox (GLBModelLibrary.optimizeModel
              (PObj.mesh v0 v1 v0 (.box 10 10 10) ⟨.hex 0x888888⟩))).map
            (fun b => maxDim3 (boxSize b)) = some 3) ∧
        (maxDim3 (vscale 2 (vmul (vabs v1) (vabs (halfExtents (.box 10 10 10))))) ≤ 3 →
          (bbox (GLBModelLibrary.optimizeModel
              (PObj.mesh v0 v1 v0 (.box 10 10 10) ⟨.hex 0x888888⟩))).map
            (fun b => maxDim3 (boxSize b)) =
            some (maxDim3 (vscale 2 (vmul (vabs v1) (vabs (halfExtents (.box 10 10 10)))))))) :=
  ⟨by norm_num [maxDim3, maxQ, absQ, vscale, vmul, vabs, halfExtents, v1],
    optimize_model_normalization v0 v1 (.box 10 10 10) ⟨.hex 0x888888⟩
      (by norm_num [maxDim3, maxQ, absQ, vscale, vmul, vabs, halfExtents, v1])⟩
